import Mathlib

/-!
Shallow embedding of the KG-Hub manifest generator
(`utils/make_kg_manifest.py`, helper `utils/get_kg_contents.py`).

The script reconciles an object-storage bucket listing with a previously
published manifest: it classifies freshly listed keys, validates new
builds, merges new records with carried-over ones, enriches them with
statistics and re-probes liveness.  Network and filesystem collaborators
(bucket listing/download/head, the KGX validator, the stats retriever)
are modelled as explicit oracle parameters; Python exceptions are
modelled with `Except PyError`; Python's partial list indexing is
modelled with `Option`-returning accessors.
-/

namespace KGManifest

/-- Python exceptions that the script can raise or catch. -/
inductive PyError where
  | indexError : PyError
  | keyError : PyError
  | typeError (msg : String) : PyError
  | otherError (msg : String) : PyError
deriving DecidableEq, Repr

instance {ε α : Type} [DecidableEq ε] [DecidableEq α] : DecidableEq (Except ε α) := fun x y =>
  match x, y with
  | .error a, .error b =>
    if h : a = b then .isTrue (by rw [h])
    else .isFalse (fun hh => by cases hh; exact h rfl)
  | .ok a, .ok b =>
    if h : a = b then .isTrue (by rw [h])
    else .isFalse (fun hh => by cases hh; exact h rfl)
  | .error _, .ok _ => .isFalse (fun hh => by cases hh)
  | .ok _, .error _ => .isFalse (fun hh => by cases hh)

/-- Python `s[-n:]`: the last `n` characters of `s` (all of `s` when
`s` has at most `n` characters, matching Python's slice clamping). -/
def pySliceFrom (s : String) (n : Nat) : String :=
  ⟨s.data.drop (s.data.length - n)⟩

/-- Split a character list at the non-overlapping occurrences of `sep`,
left to right.  The fuel argument (instantiated with more than the
list's length, and decremented once per consumed character) only makes
the recursion structural. -/
def splitOnAuxL (sep : List Char) : Nat → List Char → List Char → List (List Char)
  | _, [], acc => [acc.reverse]
  | 0, l, acc => [acc.reverse ++ l]
  | fuel + 1, c :: cs, acc =>
    if sep.isPrefixOf (c :: cs) then
      acc.reverse :: splitOnAuxL sep fuel ((c :: cs).drop sep.length) []
    else splitOnAuxL sep fuel cs (c :: acc)

/-- Python `s.split(sep)` for a non-empty separator: the pieces of `s`
between non-overlapping occurrences of `sep`, scanned left to right.
Always returns at least one element. -/
def pySplit (s sep : String) : List String :=
  (splitOnAuxL sep.data (s.data.length + 1) s.data []).map (fun cs => ⟨cs⟩)

/-- Python `s.upper()` (ASCII). -/
def pyUpper (s : String) : String :=
  ⟨s.data.map Char.toUpper⟩

/-- Python `l[i]` for a non-negative index `i`: `none` models an
`IndexError`. -/
def pyGet (l : List String) (i : Nat) : Option String :=
  l.get? i

/-- Python `l[-k]` (`k ≥ 1`): `none` models an `IndexError`. -/
def pyGetNeg (l : List String) (k : Nat) : Option String :=
  if k ≤ l.length then l.get? (l.length - k) else none

/-- Running `exceptMap f l` runs `f` over `l` left to right, stopping at the
first uncaught exception — the shape of a Python `for` loop that builds
a list and may raise. -/
def exceptMap (f : α → Except PyError β) : List α → Except PyError (List β)
  | [] => .ok []
  | a :: as =>
    match f a with
    | .error e => .error e
    | .ok b =>
      match exceptMap f as with
      | .error e => .error e
      | .ok bs => .ok (b :: bs)

/-- Running `exceptFold f s l` folds `f` over `l` left to right, stopping at the
first uncaught exception — the shape of a Python `for` loop that updates
an accumulator and may raise. -/
def exceptFold (f : σ → α → Except PyError σ) : σ → List α → Except PyError σ
  | s, [] => .ok s
  | s, a :: as =>
    match f s a with
    | .error e => .error e
    | .ok s' => exceptFold f s' as

/-! ## Configuration constants (module level in `make_kg_manifest.py`) -/

/-- Projects that won't get the full KGX validation. -/
def VALIDATION_DENYLIST : List String := ["kg-covid-19"]

/-- Component types used to build larger KGs. -/
def SUBGRAPH_TYPES : List String := ["raw", "transformed"]

/-- Directories to ignore. -/
def IGNORE_DIRS : List String :=
  ["attic", "frozen_incoming_data", "embeddings", "kg-covid-19-sparql",
   "ontoml", "test"]

/-- The URL base prepended to object keys to form record ids
(`"https://kg-hub.berkeleybop.io/" + keyname`). -/
def urlBase : String := "https://kg-hub.berkeleybop.io/"

/-- The same host string without the trailing slash, as used by
`get_stats` (`object.id.split("https://kg-hub.berkeleybop.io")`). -/
def hostNoSlash : String := "https://kg-hub.berkeleybop.io"

/-- The reconstructed URL id of an object key. -/
def keyUrl (keyname : String) : String := urlBase ++ keyname

/-! ## Data model

Modelled from the spec: the LinkML-generated classes `DataResource` and
`GraphDataPackage` live in `models/datasets.py`, which is generated
from the LinkML datasets schema and is not among the sources; spec §3
gives their field sets.  As in the script (which distinguishes the two
variants by presence of the `compression` field and accesses
`object.compression` on every record), we use a single record type with
optional fields; a `DataResource` is a record whose `compression` is
`none`.  `obsolete` holds the strings `"False"`/`"True"`, exactly the
values the script assigns. -/

structure Record where
  id : String := ""
  title : String := ""
  compression : Option String := none
  resources : List String := []
  version : Option String := none
  description : Option String := none
  was_derived_from : Option String := none
  license : Option String := none
  publisher : Option String := none
  conforms_to : Option String := none
  edge_count : Option Nat := none
  node_count : Option Nat := none
  predicates : Option String := none
  node_categories : Option String := none
  node_prefixes : Option String := none
  obsolete : Option String := none
deriving DecidableEq, Repr

/-- Ontology registry entry (`ontologies.yml` of the OBO Foundry), as
consumed by `create_dataset_objects`: `id`, `description` and
`ontology_purl` are accessed unconditionally, `license.label`,
`contact.label` and `contact.email` under a caught `KeyError`. -/
structure OntologyMeta where
  id : String
  description : String
  ontology_purl : String
  licenseLabel : Option String := none
  contactLabel : Option String := none
  contactEmail : Option String := none
deriving DecidableEq, Repr

/-- Parsed KGX stats document as consumed by `get_stats`
(`retrieve_stats` in `get_kg_contents.py` downloads and YAML-parses it;
we model the retrieval as an oracle returning this structure, `none`
standing for the empty dict returned when no stats file is found). -/
structure Stats where
  total_edges : Nat
  total_nodes : Nat
  predicates : Option (List String) := none
  edge_labels : Option (List String) := none
  node_categories : Option (List String) := none
  node_id_prefixes : Option (List String) := none
deriving DecidableEq, Repr

/-- Per-project transient report built by `validate_projects`. -/
structure ProjectContents where
  objects : List String := []
  builds : List String := []
  validBuilds : List String := []
  incorrectlyNamedBuilds : List String := []
  incorrectlyStructuredBuilds : List String := []
  buildsWithIssuesInTarGz : List String := []
deriving DecidableEq, Repr

/-- The two classification buckets returned by `get_graph_file_keys`. -/
structure GraphFileKeys where
  compressed : List String := []
  uncompressed : List String := []
deriving DecidableEq, Repr

/-! ## Key Classifier (`get_graph_file_keys`, lines 395-444) -/

/-- Python `keyname[-7:] == ".tar.gz"`. -/
def isCompressedKey (keyname : String) : Bool :=
  pySliceFrom keyname 7 == ".tar.gz"

/-- Python `keyname[-9:] in ["edges.tsv", "nodes.tsv"]`. -/
def isUncompressedKey (keyname : String) : Bool :=
  pySliceFrom keyname 9 == "edges.tsv" || pySliceFrom keyname 9 == "nodes.tsv"

/-- A key survives the two `continue` guards of the classification loop:
its reconstructed URL is not an id of the previous manifest, and its
first path segment is not an ignored directory.  (`keyname.split("/")`
is never empty, so the `IndexError` guard in the source cannot fire.) -/
def keyKept (previous_manifest_keys : List String) (keyname : String) : Bool :=
  decide (keyUrl keyname ∉ previous_manifest_keys) &&
  decide ((pySplit keyname "/").headD "" ∉ IGNORE_DIRS)

/-- The classification loop (lines 415-427): it appends to the two
bucket lists independently, rendered here as two filters over the
listing in order. -/
def classifyKeys (keys : List String) (previous_manifest : List Record) : GraphFileKeys :=
  let previous_manifest_keys := previous_manifest.map (fun object => object.id)
  { compressed := keys.filter
      (fun keyname => keyKept previous_manifest_keys keyname && isCompressedKey keyname),
    uncompressed := keys.filter
      (fun keyname => keyKept previous_manifest_keys keyname && isUncompressedKey keyname) }

/-- Source `get_graph_file_keys`: bucket the kept keys by suffix, then apply
the optional maximum (lines 432-439).  Python's `if maximum:` is falsy
both for `None` and for `0`, so a maximum of `0` performs no
truncation. -/
def get_graph_file_keys (keys : List String) (maximum : Option Nat)
    (previous_manifest : List Record) : GraphFileKeys :=
  let base := classifyKeys keys previous_manifest
  match maximum with
  | some m =>
    if m ≠ 0 then
      let compressed := base.compressed.take m
      let remaining := m - compressed.length
      { compressed := compressed,
        uncompressed := if remaining > 0 then base.uncompressed.take remaining else [] }
    else base
  | none => base

/-! ## Build name validation (`validate_build_name`, lines 187-198)

CPython's `datetime.strptime(build_name, '%Y%m%d')` matches the whole
string against the regex pieces `\d\d\d\d` for `%Y`,
`1[0-2]|0[1-9]|[1-9]` for `%m` and `3[01]|[12]\d|0[1-9]|[1-9]| [1-9]`
for `%d` — so the month and day fields may also be a *single* digit
(and the day even space-padded), and
six- and seven-digit names such as `202311` (→ 2023-01-01) are
accepted — and then builds the `datetime`, which checks year at least
`MINYEAR` (1) and day valid for that month and year (Gregorian leap
rule).  Overall success is equivalent to *some* split of the digits
after the year into such month and day fields passing the date check:
when two splits both complete the regex match, the engine's preferred
one has a two-digit month `10`-`12` followed by a one-digit day `1`-`9`,
which never fails the date check, so first-match-then-validate agrees
with the existential. -/

/-- Numeric value of a digit string. -/
def digitsToNat (cs : List Char) : Nat :=
  cs.foldl (fun a c => a * 10 + (c.toNat - 48)) 0

/-- Numeric value of a digit character. -/
def digVal (c : Char) : Nat := c.toNat - 48

/-- Gregorian leap year rule, as used by `datetime`. -/
def isLeapYear (y : Nat) : Bool :=
  y % 4 == 0 && (y % 100 != 0 || y % 400 == 0)

/-- Days in a month, as used by `datetime`. -/
def daysInMonth (y m : Nat) : Nat :=
  if m == 2 then (if isLeapYear y then 29 else 28)
  else if m ∈ [4, 6, 9, 11] then 30
  else 31

/-- The `%m` field regex `1[0-2]|0[1-9]|[1-9]`. -/
def monthMatches (cs : List Char) : Bool :=
  match cs with
  | [c] => c.isDigit && decide (1 ≤ digVal c)
  | [c1, c2] =>
    (c1 == '1' && c2.isDigit && decide (digVal c2 ≤ 2)) ||
    (c1 == '0' && c2.isDigit && decide (1 ≤ digVal c2))
  | _ => false

/-- The `%d` field regex `3[01]|[12]\d|0[1-9]|[1-9]| [1-9]` — the
last alternative accepts a space-padded day. -/
def dayMatches (cs : List Char) : Bool :=
  match cs with
  | [c] => c.isDigit && decide (1 ≤ digVal c)
  | [c1, c2] =>
    (c1 == '3' && (c2 == '0' || c2 == '1')) ||
    ((c1 == '1' || c1 == '2') && c2.isDigit) ||
    (c1 == '0' && c2.isDigit && decide (1 ≤ digVal c2)) ||
    (c1 == ' ' && c2.isDigit && decide (1 ≤ digVal c2))
  | _ => false

/-- Python `int` applied to a matched field: leading spaces are
stripped (the `%d` field may be space-padded). -/
def pyInt (cs : List Char) : Nat :=
  digitsToNat (cs.dropWhile (fun c => c == ' '))

/-- Source `validate_build_name`: `True` iff `datetime.strptime(build_name,
'%Y%m%d')` does not raise `ValueError`: four year digits, then the rest
of the string split into a `%m` and a `%d` field (one or two digits
each, so the whole name has six to eight characters), with the
resulting date valid. -/
def validate_build_name (build_name : String) : Bool :=
  let cs := build_name.data
  decide (4 ≤ cs.length) && (cs.take 4).all Char.isDigit &&
  (let y := digitsToNat (cs.take 4)
   let rest := cs.drop 4
   [1, 2].any (fun mlen =>
     monthMatches (rest.take mlen) && dayMatches (rest.drop mlen) &&
     decide (1 ≤ y) &&
     decide (pyInt (rest.drop mlen) ≤ daysInMonth y (digitsToNat (rest.take mlen)))))

/-! ## Bundle Structural Validator (`validate_merged_graph`, lines 200-274)

The download and archive inspection are collaborators: `contents`
stands for `graph_file.getnames()` of the downloaded bundle and
`kgxValidate` for the outcome of `kgx.cli.validate` (its list of
reported errors, or a raised exception).  The function returns the
`results` dict — or the uncaught exception — paired with a flag
recording whether `shutil.rmtree(temp_dir)` ran, i.e. whether the
scratch download directory was removed. -/

structure GraphValidationResults where
  fileCountCorrect : Bool := false
  fileNamesCorrect : Bool := false
  noKgxValidationErrors : Bool := false
deriving DecidableEq, Repr

/-- Source `validate_merged_graph`.  Notes kept faithful to the source:
* `build_name = graph_key.split("/")[1]` is computed before the scratch
  directory is created, so a slash-less key raises `IndexError` with no
  directory to clean up;
* more than two members ⇒ warn, remove the scratch directory and return
  the all-`False` results;
* the file-name check is literally
  `if not 'merged-kg_edges.tsv' in contents and 'merged-kg_nodes.tsv'
  in contents`, i.e. (by Python precedence) it warns only when the edge
  file is absent AND the node file is present, and sets
  `"file names correct"` to `True` in every other case;
* only `TypeError` from the KGX call is caught; any other exception
  propagates, skipping the final `shutil.rmtree`. -/
def validate_merged_graph (graph_key : String) (contents : List String)
    (kgxValidate : Except PyError (List String)) :
    Except PyError GraphValidationResults × Bool :=
  match pyGet (pySplit graph_key "/") 1 with
  | none => (.error .indexError, false)
  | some _build_name =>
    let project_name := (pySplit graph_key "/").headD ""
    let results : GraphValidationResults := {}
    if contents.length > 2 then
      (.ok results, true)
    else
      let results := { results with fileCountCorrect := true }
      let results :=
        if "merged-kg_edges.tsv" ∉ contents ∧ "merged-kg_nodes.tsv" ∈ contents then
          results
        else
          { results with fileNamesCorrect := true }
      let full_validation := project_name ∉ VALIDATION_DENYLIST
      if full_validation then
        match kgxValidate with
        | .ok errors =>
          if errors.length > 0 then (.ok results, true)
          else (.ok { results with noKgxValidationErrors := true }, true)
        | .error (.typeError _) => (.ok results, true)
        | .error e => (.error e, false)
      else (.ok results, true)

/-! ## Build Validator (`validate_projects`, lines 276-393)

`PROJECTS` (loaded from `projects.yaml` at module load; project id →
description) is passed as an association list.  The per-bundle network
collaborators are the oracles `bundleContents` (member names of the
downloaded archive for a key) and `kgxOutcome` (result of
`kgx.cli.validate` for a key). -/

/-- All classified keys, in dict iteration order
(`"compressed"` first, then `"uncompressed"`). -/
def graphFileKeyAll (g : GraphFileKeys) : List String :=
  g.compressed ++ g.uncompressed

/-- Python `graph_file_key_projects = list(set(first segments))`.  Python's
`set` ordering is arbitrary and the list is only ever used for
membership tests; `dedup` preserves exactly that membership. -/
def graphFileKeyProjects (g : GraphFileKeys) : List String :=
  ((graphFileKeyAll g).map (fun keyname => (pySplit keyname "/").headD "")).dedup

/-- The list `graph_file_key_builds`: second path segment of every classified
key; a slash-less classified key raises an uncaught `IndexError` here
(line 307). -/
def graphFileKeyBuilds (g : GraphFileKeys) : Except PyError (List String) :=
  exceptMap
    (fun keyname =>
      match pyGet (pySplit keyname "/") 1 with
      | some build_name => .ok build_name
      | none => .error .indexError)
    (graphFileKeyAll g)

/-- Lines 327-340: collect, for one project, the keys under it and the
distinct build names (second path segment, excluding the reserved
sentinels); the `IndexError` for keys without a second segment is
caught and ignored, after the key was already appended to `objects`. -/
def collectStep (project_name : String) (pc : ProjectContents) (keyname : String) :
    ProjectContents :=
  if (pySplit keyname "/").headD "" == project_name then
    let pc := { pc with objects := pc.objects ++ [keyname] }
    match pyGet (pySplit keyname "/") 1 with
    | some build_name =>
      if build_name ∉ pc.builds ∧ build_name ∉ ["index.html", "current", "README"] then
        { pc with builds := pc.builds ++ [build_name] }
      else pc
    | none => pc
  else pc

/-- The fold of `collectStep` over the full key listing, from an empty
report. -/
def collectBuilds (project_name : String) (keys : List String) : ProjectContents :=
  keys.foldl (collectStep project_name) {}

/-- Python `f"{project_name}/{build_name}/{dir_type}/index.html" in keys`. -/
def markerPresent (keys : List String) (project_name build_name dir_type : String) : Bool :=
  decide ((project_name ++ "/" ++ build_name ++ "/" ++ dir_type ++ "/index.html") ∈ keys)

/-- The loop over `["raw","stats","transformed"]` (lines 355-360):
each missing index marker clears `valid` and records the build under
"incorrectly structured builds" (at most once, via the membership
guard). -/
def structLoop (keys : List String) (project_name build_name : String) :
    Bool × ProjectContents → List String → Bool × ProjectContents
  | acc, [] => acc
  | (valid, pc), dir_type :: rest =>
    if markerPresent keys project_name build_name dir_type then
      structLoop keys project_name build_name (valid, pc) rest
    else
      structLoop keys project_name build_name
        (false,
         if build_name ∈ pc.incorrectlyStructuredBuilds then pc
         else { pc with incorrectlyStructuredBuilds := pc.incorrectlyStructuredBuilds ++ [build_name] })
        rest

/-- Lines 363-367: find the first compressed classified key whose first
two path segments are this project and build (`""` when none).  The
second segment is only inspected after the first matched, mirroring the
`and` short-circuit; a matching slash-less key raises `IndexError`. -/
def findMergedGraphKey (compressedKeys : List String)
    (project_name build_name : String) : Except PyError String :=
  match compressedKeys with
  | [] => .ok ""
  | graph_key :: rest =>
    if (pySplit graph_key "/").headD "" == project_name then
      match pyGet (pySplit graph_key "/") 1 with
      | none => .error .indexError
      | some b =>
        if b == build_name then .ok graph_key
        else findMergedGraphKey rest project_name build_name
    else findMergedGraphKey rest project_name build_name

/-- Lines 362-380, on the `valid`/report pair left by the name and
structure checks: find the bundle among the compressed classified keys
(absence alone clears `valid`, no further checks), run the bundle
validator, clear `valid` and record "issues in tar.gz" when the count
or name check fails (the deep KGX flag is only logged, line 376), and
finally append to "valid builds" iff `valid` survived. -/
def processBuildTail (keys compressedKeys : List String)
    (bundleContents : String → List String)
    (kgxOutcome : String → Except PyError (List String))
    (project_name build_name : String) (acc : Bool × ProjectContents) :
    Except PyError ProjectContents :=
  match findMergedGraphKey compressedKeys project_name build_name with
  | .error e => .error e
  | .ok merged_graph_key =>
    if merged_graph_key == "" then
      .ok acc.2
    else
      match (validate_merged_graph merged_graph_key (bundleContents merged_graph_key)
              (kgxOutcome merged_graph_key)).1 with
      | .error e => .error e
      | .ok results =>
        let acc2 : Bool × ProjectContents :=
          if !(results.fileCountCorrect && results.fileNamesCorrect) then
            (false, { acc.2 with buildsWithIssuesInTarGz := (acc.2).buildsWithIssuesInTarGz ++ [build_name] })
          else acc
        .ok (if acc2.1 then { acc2.2 with validBuilds := (acc2.2).validBuilds ++ [build_name] } else acc2.2)

/-- Lines 349-380: validate one candidate build and update the
project's report accordingly; `valid` starts true, must survive the
name check, the three structure markers, bundle presence and the
bundle's file-count and file-name checks. -/
def processBuild (keys compressedKeys : List String)
    (bundleContents : String → List String)
    (kgxOutcome : String → Except PyError (List String))
    (project_name build_name : String) (pc : ProjectContents) :
    Except PyError ProjectContents :=
  processBuildTail keys compressedKeys bundleContents kgxOutcome project_name build_name
    (structLoop keys project_name build_name
      (if validate_build_name build_name then (true, pc)
       else (false, { pc with incorrectlyNamedBuilds := pc.incorrectlyNamedBuilds ++ [build_name] }))
      ["raw", "stats", "transformed"])

/-- The per-project build loop (lines 343-380): validate exactly those
builds whose name appears in `graph_file_key_builds` (the global list
of second segments of all newly classified keys). -/
def buildLoop (keys compressedKeys : List String)
    (bundleContents : String → List String)
    (kgxOutcome : String → Except PyError (List String))
    (project_name : String) (graph_file_key_builds : List String)
    (pc : ProjectContents) (builds : List String) : Except PyError ProjectContents :=
  exceptFold
    (fun pc build_name =>
      if build_name ∉ graph_file_key_builds then .ok pc
      else processBuild keys compressedKeys bundleContents kgxOutcome
             project_name build_name pc)
    pc builds

/-- The body of the loop over `PROJECTS` (lines 314-391): skip `kg-obo`
and projects without newly classified keys; otherwise collect the
project's keys and builds and run the build loop, appending the report
to the accumulated association list. -/
def projectStep (keys : List String) (graph_file_keys : GraphFileKeys)
    (bundleContents : String → List String)
    (kgxOutcome : String → Except PyError (List String))
    (graph_file_key_builds : List String)
    (project_contents : List (String × ProjectContents)) (project : String × String) :
    Except PyError (List (String × ProjectContents)) :=
  let project_name := project.1
  if project_name == "kg-obo" then .ok project_contents
  else if project_name ∉ graphFileKeyProjects graph_file_keys then .ok project_contents
  else
    let pc := collectBuilds project_name keys
    match buildLoop keys graph_file_keys.compressed bundleContents kgxOutcome
            project_name graph_file_key_builds pc pc.builds with
    | .error e => .error e
    | .ok pc => .ok (project_contents ++ [(project_name, pc)])

/-- Source `validate_projects`: for each project of `PROJECTS` in order, run
`projectStep`; the reports are returned as an association list in
insertion order.  `PROJECTS` (loaded from `projects.yaml` at module
load; project id → description) is passed as an association list. -/
def validate_projects (projects : List (String × String)) (keys : List String)
    (graph_file_keys : GraphFileKeys)
    (bundleContents : String → List String)
    (kgxOutcome : String → Except PyError (List String)) :
    Except PyError (List (String × ProjectContents)) :=
  match graphFileKeyBuilds graph_file_keys with
  | .error e => .error e
  | .ok graph_file_key_builds =>
    exceptFold
      (projectStep keys graph_file_keys bundleContents kgxOutcome graph_file_key_builds)
      [] projects

/-! ## Record Builder (`create_dataset_objects`, lines 446-510) -/

/-- Lines 480-489: cross-reference a `kg-obo` package against the
ontology registry entries.  The loop has no `break`, so every entry
with a matching id applies in order; `license` and `publisher` are set
inside one `try`, so a missing license label skips both, and a license
label with a missing contact label/email sets only `license`. -/
def applyOboMetaStep (ont_id : String) (data_object : Record)
    (ontology : OntologyMeta) : Record :=
  if ontology.id == ont_id then
    let data_object :=
      { data_object with
          description := some (pyUpper ontology.id ++ ". " ++ ontology.description),
          was_derived_from := some ontology.ontology_purl }
    match ontology.licenseLabel with
    | none => data_object
    | some lab =>
      let data_object := { data_object with license := some lab }
      match ontology.contactLabel, ontology.contactEmail with
      | some cl, some ce =>
        { data_object with publisher := some (cl ++ " (" ++ ce ++ ")") }
      | _, _ => data_object
  else data_object

/-- The fold of `applyOboMetaStep` over the registry entries. -/
def applyOboMeta (obo : List OntologyMeta) (ont_id : String)
    (data_object : Record) : Record :=
  obo.foldl (applyOboMetaStep ont_id) data_object

/-- Lines 476-479: set `version` and `description` when the key's
project is tracked and its second-to-last segment is not a subgraph
type. -/
def applyVersionDescription (projects : List (String × String)) (parts : List String)
    (data_object : Record) : Record :=
  match projects.lookup (parts.headD ""), pyGetNeg parts 2 with
  | some description, some second_to_last =>
    if second_to_last ∉ SUBGRAPH_TYPES then
      { data_object with version := some second_to_last,
                         description := some description }
    else data_object
  | _, _ => data_object

/-- Lines 494-499: set `conforms_to` when the owning build passed
validation; the `KeyError` for an untracked project is caught. -/
def applyConformsTo (project_contents : List (String × ProjectContents))
    (project_name build_name : String) (data_object : Record) : Record :=
  match project_contents.lookup project_name with
  | some pc =>
    if build_name ∈ pc.validBuilds then { data_object with conforms_to := some "KG-Hub" }
    else data_object
  | none => data_object

/-- Lines 501-506: set `was_derived_from` for transform outputs; the
`IndexError` for short keys is caught. -/
def applyTransformSource (parts : List String) (data_object : Record) : Record :=
  match pyGetNeg parts 3 with
  | some third_to_last =>
    if third_to_last == "transformed" then
      { data_object with was_derived_from := pyGetNeg parts 2 }
    else data_object
  | none => data_object

/-- Lines 464-508: build one record from one classified key.
`build_name = object.split("/")[1]` is evaluated for both variants and
is the only uncaught `IndexError` in this function (the `transformed`
lookup catches its own).  `projects` is the `PROJECTS` table,
`project_contents` the Build Validator's reports. -/
def buildRecord (projects : List (String × String)) (obo : List OntologyMeta)
    (project_contents : List (String × ProjectContents))
    (isCompressed : Bool) (object : String) : Except PyError Record :=
  let parts := pySplit object "/"
  let url := keyUrl object
  let title := (pyGetNeg parts 1).getD ""
  let project_name := parts.headD ""
  match pyGet parts 1 with
  | none => .error .indexError
  | some build_name =>
    let data_object : Record :=
      if isCompressed then
        let data_object :=
          applyVersionDescription projects parts
            { id := url, title := title, compression := some "tar.gz",
              resources := ["merged-kg_edges.tsv", "merged-kg_nodes.tsv"] }
        if project_name == "kg-obo" then applyOboMeta obo build_name data_object
        else data_object
      else
        { id := url, title := title }
    .ok (applyTransformSource parts
          (applyConformsTo project_contents project_name build_name data_object))

/-- Source `create_dataset_objects`: previous records first, unchanged, then
one fresh record per classified key — compressed keys first, then
uncompressed, each list in classification order. -/
def create_dataset_objects (objects : GraphFileKeys) (obo : List OntologyMeta)
    (projects : List (String × String))
    (project_contents : List (String × ProjectContents))
    (previous_manifest : List Record) : Except PyError (List Record) :=
  match exceptMap (buildRecord projects obo project_contents true) objects.compressed with
  | .error e => .error e
  | .ok compressedRecords =>
    match exceptMap (buildRecord projects obo project_contents false) objects.uncompressed with
    | .error e => .error e
    | .ok uncompressedRecords =>
      .ok (previous_manifest ++ compressedRecords ++ uncompressedRecords)

/-! ## Statistics Enricher (`get_stats`, lines 512-548)

`retrieve_stats` (network) is the oracle `statsOf`; `statsOf key =
none` models the empty dict it returns when no stats document exists.
The key parsing at lines 524-526 runs for every record before the
compression test, so it is the partial part of this step. -/

/-- The body of the `get_stats` loop for one record. -/
def getStatsOne (statsOf : String → Option Stats) (object : Record) :
    Except PyError Record :=
  match pyGet (pySplit object.id hostNoSlash) 1 with
  | none => .error .indexError
  | some object_key =>
    match pyGet (pySplit object_key "/") 1 with
    | none => .error .indexError
    | some object_project =>
      match pyGet (pySplit object_key "/") 3 with
      | none => .error .indexError
      | some object_type =>
        if object.compression == some "tar.gz" ∧ object_project ≠ "kg-obo" ∧
            object_type ∉ ["raw", "transformed"] then
          match statsOf object_key with
          | none => .ok object
          | some stats =>
            let predicatesJoined :=
              match stats.predicates with
              | some ps => some (String.intercalate "|" ps)
              | none =>
                match stats.edge_labels with
                | some ps => some (String.intercalate "|" ps)
                | none => none
            match predicatesJoined with
            | none => .error .keyError
            | some predicatesJoined =>
              match stats.node_categories with
              | none => .error .keyError
              | some node_categories =>
                .ok { object with
                        edge_count := some stats.total_edges,
                        node_count := some stats.total_nodes,
                        predicates := some predicatesJoined,
                        node_categories := some (String.intercalate "|" node_categories),
                        node_prefixes :=
                          match stats.node_id_prefixes with
                          | some nps => some (String.intercalate "|" nps)
                          | none => object.node_prefixes }
        else .ok object

/-- Source `get_stats`: enrich every record in place, in order.  The
`predicates`/`edge_labels` fallback is the caught `KeyError`; a stats
document carrying neither, or no `node_categories`, raises an uncaught
`KeyError`. -/
def get_stats (statsOf : String → Option Stats) (data_objects : List Record) :
    Except PyError (List Record) :=
  exceptMap (getStatsOne statsOf) data_objects

/-! ## Liveness Checker (`check_urls`, lines 550-576)

The `head_object` existence probe is the oracle `probe`; the caught
`ClientError` is `probe key = false`. -/

/-- The body of the `check_urls` loop for one record. -/
def checkUrlsOne (probe : String → Bool) (object : Record) :
    Except PyError Record :=
  match pyGet (pySplit object.id urlBase) 1 with
  | none => .error .indexError
  | some object_key =>
    if probe object_key then .ok { object with obsolete := some "False" }
    else .ok { object with obsolete := some "True" }

/-- Source `check_urls`: re-probe every record, in order. -/
def check_urls (probe : String → Bool) (data_objects : List Record) :
    Except PyError (List Record) :=
  exceptMap (checkUrlsOne probe) data_objects

/-! ## The reconciliation pipeline (`run`, lines 96-126)

The environment bundles the configuration and collaborator oracles
that stay fixed across a run: the `PROJECTS` table, the OBO registry
entries (`project_metadata["kg-obo"]`), and the per-key network
oracles. -/

structure Env where
  projects : List (String × String)
  obo : List OntologyMeta
  bundleContents : String → List String
  kgxOutcome : String → Except PyError (List String)
  statsOf : String → Option Stats
  probe : String → Bool

/-- Lines 116-124 of `run`: classify, validate, merge, enrich, probe.
(The surrounding credential handling, manifest download and final
write are I/O glue.) -/
def runPipeline (env : Env) (keys : List String) (maximum : Option Nat)
    (previous_manifest : List Record) : Except PyError (List Record) :=
  let graph_file_keys := get_graph_file_keys keys maximum previous_manifest
  match validate_projects env.projects keys graph_file_keys env.bundleContents env.kgxOutcome with
  | .error e => .error e
  | .ok project_contents =>
    match create_dataset_objects graph_file_keys env.obo env.projects project_contents
            previous_manifest with
    | .error e => .error e
    | .ok dataset_objects =>
      match get_stats env.statsOf dataset_objects with
      | .error e => .error e
      | .ok dataset_objects => check_urls env.probe dataset_objects

/-! ## Helper lemmas -/

theorem exceptMap_ok_iff {f : α → Except PyError β} {l : List α} {l' : List β} :
    exceptMap f l = .ok l' ↔ List.Forall₂ (fun a b => f a = .ok b) l l' := by
  induction l generalizing l' with
  | nil =>
    constructor
    · intro h
      cases h
      exact List.Forall₂.nil
    · intro h
      cases h
      rfl
  | cons a as ih =>
    constructor
    · intro h
      unfold exceptMap at h
      cases hfa : f a with
      | error e => rw [hfa] at h; cases h
      | ok b =>
        rw [hfa] at h
        cases hrest : exceptMap f as with
        | error e => rw [hrest] at h; cases h
        | ok bs =>
          rw [hrest] at h
          cases h
          exact List.Forall₂.cons hfa (ih.mp hrest)
    · intro h
      cases h with
      | cons hab hrest =>
        unfold exceptMap
        rw [hab, ih.mpr hrest]

theorem forall₂_map_eq {R : α → β → Prop} {l : List α} {l' : List β}
    (h : List.Forall₂ R l l') (f : α → γ) (g : β → γ)
    (hfg : ∀ a b, R a b → g b = f a) : l'.map g = l.map f := by
  induction h with
  | nil => rfl
  | cons hab _ ih => simp only [List.map_cons, ih, hfg _ _ hab]

theorem pySliceFrom_pySliceFrom (s : String) {n m : Nat} (h : n ≤ m) :
    pySliceFrom (pySliceFrom s m) n = pySliceFrom s n := by
  unfold pySliceFrom
  apply congrArg String.mk
  show (List.drop _ _).drop _ = _
  rw [List.length_drop, List.drop_drop]
  congr 1
  omega

theorem not_compressed_and_uncompressed (k : String) :
    ¬(isCompressedKey k = true ∧ isUncompressedKey k = true) := by
  rintro ⟨hc, hu⟩
  unfold isCompressedKey at hc
  unfold isUncompressedKey at hu
  rw [beq_iff_eq] at hc
  rw [Bool.or_eq_true, beq_iff_eq, beq_iff_eq] at hu
  have h79 : (7 : Nat) ≤ 9 := by omega
  rcases hu with h | h
  · have htr := pySliceFrom_pySliceFrom k h79
    rw [h, hc] at htr
    exact absurd htr (by decide)
  · have htr := pySliceFrom_pySliceFrom k h79
    rw [h, hc] at htr
    exact absurd htr (by decide)

theorem keyUrl_injective : Function.Injective keyUrl := by
  intro a b h
  unfold keyUrl at h
  have h2 : (urlBase ++ a).data = (urlBase ++ b).data := congrArg String.data h
  rw [String.data_append, String.data_append] at h2
  exact String.ext (List.append_cancel_left h2)

theorem get_graph_file_keys_none (keys : List String) (previous_manifest : List Record) :
    get_graph_file_keys keys none previous_manifest = classifyKeys keys previous_manifest := rfl

theorem mem_classifyKeys_compressed {keys : List String} {prev : List Record} {k : String} :
    k ∈ (classifyKeys keys prev).compressed ↔
      k ∈ keys ∧ keyKept (prev.map (fun object => object.id)) k = true ∧
        isCompressedKey k = true := by
  unfold classifyKeys
  simp only [List.mem_filter, Bool.and_eq_true]

theorem mem_classifyKeys_uncompressed {keys : List String} {prev : List Record} {k : String} :
    k ∈ (classifyKeys keys prev).uncompressed ↔
      k ∈ keys ∧ keyKept (prev.map (fun object => object.id)) k = true ∧
        isUncompressedKey k = true := by
  unfold classifyKeys
  simp only [List.mem_filter, Bool.and_eq_true]

/-! ## C4: suffix classification of kept keys -/

/-- C4 — For every key in the bucket listing that is not under an
ignored top-level directory and whose reconstructed URL id is not in
the previous manifest, the Key Classifier places it in the
"compressed" bucket exactly when it ends in `.tar.gz` and in the
"uncompressed" bucket exactly when it ends in `edges.tsv` or
`nodes.tsv`, and no key is placed in both buckets. -/
theorem claim_C4 (keys : List String) (previous_manifest : List Record) (keyname : String)
    (hmem : keyname ∈ keys)
    (hig : (pySplit keyname "/").headD "" ∉ IGNORE_DIRS)
    (hprev : keyUrl keyname ∉ previous_manifest.map (fun object => object.id)) :
    (keyname ∈ (get_graph_file_keys keys none previous_manifest).compressed ↔
      isCompressedKey keyname = true) ∧
    (keyname ∈ (get_graph_file_keys keys none previous_manifest).uncompressed ↔
      isUncompressedKey keyname = true) ∧
    ¬(keyname ∈ (get_graph_file_keys keys none previous_manifest).compressed ∧
      keyname ∈ (get_graph_file_keys keys none previous_manifest).uncompressed) := by
  have hkept : keyKept (previous_manifest.map (fun object => object.id)) keyname = true := by
    unfold keyKept
    simp only [Bool.and_eq_true, decide_eq_true_eq]
    exact ⟨hprev, hig⟩
  have hc : keyname ∈ (get_graph_file_keys keys none previous_manifest).compressed ↔
      isCompressedKey keyname = true := by
    rw [get_graph_file_keys_none, mem_classifyKeys_compressed]
    tauto
  have hu : keyname ∈ (get_graph_file_keys keys none previous_manifest).uncompressed ↔
      isUncompressedKey keyname = true := by
    rw [get_graph_file_keys_none, mem_classifyKeys_uncompressed]
    tauto
  refine ⟨hc, hu, ?_⟩
  rintro ⟨h1, h2⟩
  exact not_compressed_and_uncompressed keyname ⟨hc.mp h1, hu.mp h2⟩

/-- Closed instance of `claim_C4`. -/
theorem claim_C4_witness :
    ("kg-example/20230101/kg-example.tar.gz" ∈
      (get_graph_file_keys ["kg-example/20230101/kg-example.tar.gz"] none []).compressed ↔
      isCompressedKey "kg-example/20230101/kg-example.tar.gz" = true) ∧
    ("kg-example/20230101/kg-example.tar.gz" ∈
      (get_graph_file_keys ["kg-example/20230101/kg-example.tar.gz"] none []).uncompressed ↔
      isUncompressedKey "kg-example/20230101/kg-example.tar.gz" = true) ∧
    ¬("kg-example/20230101/kg-example.tar.gz" ∈
        (get_graph_file_keys ["kg-example/20230101/kg-example.tar.gz"] none []).compressed ∧
      "kg-example/20230101/kg-example.tar.gz" ∈
        (get_graph_file_keys ["kg-example/20230101/kg-example.tar.gz"] none []).uncompressed) :=
  claim_C4 _ _ _ (by decide) (by decide) (by decide)

/-! ## C5: the maximum cap

Python's `if maximum:` is falsy for `0`, so `--maximum 0` performs no
truncation at all and the combined cap is not respected at `N = 0`;
for every positive `N` the claim holds. -/

/-- C5 counterexample — With `maximum = 0` and one classifiable
key, the classifier still processes that key, so the combined number of
newly classified keys exceeds the cap `N = 0`: the claim fails at
`N = 0`. -/
theorem claim_C5_counterexample :
    ¬((get_graph_file_keys ["kg-example/20230101/kg-example.tar.gz"] (some 0) []).compressed.length +
      (get_graph_file_keys ["kg-example/20230101/kg-example.tar.gz"] (some 0) []).uncompressed.length ≤ 0) := by
  decide

/-- C5 amended — For every given *positive* maximum cap `N`, the
Key Classifier first truncates the compressed list to at most `N`
entries, then fills any remaining budget from the uncompressed list,
and the combined number of newly classified keys processed in the run
is at most `N`. -/
theorem get_graph_file_keys_some (keys : List String) (previous_manifest : List Record)
    {N : Nat} (hN : N ≠ 0) :
    get_graph_file_keys keys (some N) previous_manifest =
      { compressed := (get_graph_file_keys keys none previous_manifest).compressed.take N,
        uncompressed :=
          if N - ((get_graph_file_keys keys none previous_manifest).compressed.take N).length > 0 then
            (get_graph_file_keys keys none previous_manifest).uncompressed.take
              (N - ((get_graph_file_keys keys none previous_manifest).compressed.take N).length)
          else [] } := by
  show (if N ≠ 0 then
      ({ compressed := (classifyKeys keys previous_manifest).compressed.take N,
         uncompressed :=
           if N - ((classifyKeys keys previous_manifest).compressed.take N).length > 0 then
             (classifyKeys keys previous_manifest).uncompressed.take
               (N - ((classifyKeys keys previous_manifest).compressed.take N).length)
           else [] } : GraphFileKeys)
    else classifyKeys keys previous_manifest) = _
  rw [if_pos hN]
  rfl

theorem claim_C5 (keys : List String) (previous_manifest : List Record) (N : Nat)
    (hN : 0 < N) :
    (get_graph_file_keys keys (some N) previous_manifest).compressed =
      (get_graph_file_keys keys none previous_manifest).compressed.take N ∧
    (get_graph_file_keys keys (some N) previous_manifest).uncompressed =
      (get_graph_file_keys keys none previous_manifest).uncompressed.take
        (N - (get_graph_file_keys keys (some N) previous_manifest).compressed.length) ∧
    (get_graph_file_keys keys (some N) previous_manifest).compressed.length +
      (get_graph_file_keys keys (some N) previous_manifest).uncompressed.length ≤ N := by
  have hNne : N ≠ 0 := Nat.pos_iff_ne_zero.mp hN
  rw [get_graph_file_keys_some keys previous_manifest hNne]
  dsimp only
  refine ⟨rfl, ?_, ?_⟩
  · by_cases hrem :
      N - ((get_graph_file_keys keys none previous_manifest).compressed.take N).length > 0
    · rw [if_pos hrem]
    · rw [if_neg hrem]
      have h0 : N - ((get_graph_file_keys keys none previous_manifest).compressed.take N).length = 0 := by
        omega
      rw [h0, List.take_zero]
  · have hc : ((get_graph_file_keys keys none previous_manifest).compressed.take N).length ≤ N := by
      rw [List.length_take]
      exact Nat.min_le_left _ _
    by_cases hrem :
      N - ((get_graph_file_keys keys none previous_manifest).compressed.take N).length > 0
    · rw [if_pos hrem]
      have hu : ((get_graph_file_keys keys none previous_manifest).uncompressed.take
          (N - ((get_graph_file_keys keys none previous_manifest).compressed.take N).length)).length ≤
          N - ((get_graph_file_keys keys none previous_manifest).compressed.take N).length := by
        rw [List.length_take]
        exact Nat.min_le_left _ _
      omega
    · rw [if_neg hrem]
      simp only [List.length_nil]
      omega

/-- Closed instance of `claim_C5`. -/
theorem claim_C5_witness :
    (get_graph_file_keys ["a/b/x.tar.gz", "a/b/y.tar.gz", "a/b/nodes.tsv"] (some 2) []).compressed =
      (get_graph_file_keys ["a/b/x.tar.gz", "a/b/y.tar.gz", "a/b/nodes.tsv"] none []).compressed.take 2 ∧
    (get_graph_file_keys ["a/b/x.tar.gz", "a/b/y.tar.gz", "a/b/nodes.tsv"] (some 2) []).uncompressed =
      (get_graph_file_keys ["a/b/x.tar.gz", "a/b/y.tar.gz", "a/b/nodes.tsv"] none []).uncompressed.take
        (2 - (get_graph_file_keys ["a/b/x.tar.gz", "a/b/y.tar.gz", "a/b/nodes.tsv"] (some 2) []).compressed.length) ∧
    (get_graph_file_keys ["a/b/x.tar.gz", "a/b/y.tar.gz", "a/b/nodes.tsv"] (some 2) []).compressed.length +
      (get_graph_file_keys ["a/b/x.tar.gz", "a/b/y.tar.gz", "a/b/nodes.tsv"] (some 2) []).uncompressed.length ≤ 2 :=
  claim_C5 _ _ _ (by decide)

/-! ## C6: the file-name check of the Bundle Structural Validator

The source reads
`if not 'merged-kg_edges.tsv' in contents and 'merged-kg_nodes.tsv' in
contents:` — by Python operator precedence this warns (and leaves the
flag `False`) only when the edge file is absent AND the node file is
present; in every other case, including member lists with entirely
wrong names, `"file names correct"` is set to `True`.  This contradicts
the function's own docstring ("expected to contain one node list and
one edge list ... validates accordingly") and its warning text
("Unexpected node/edge file names"): the intended condition is the
parenthesised one, and the claim describes the intent. -/

/-- C6 code bug — A bundle whose two members are named
`foo.tsv`/`bar.tsv` (neither expected name) passes the "file names
correct" check with no warning, because the un-parenthesised condition
only fires when the edge list is missing while the node list is
present.  The claim (flag true exactly for the two expected names) is
the documented intent; the code contradicts it at this input. -/
theorem claim_C6_code_bug :
    (validate_merged_graph "kg-example/20230101/kg-example.tar.gz"
        ["foo.tsv", "bar.tsv"] (.ok [])).1 =
      .ok { fileCountCorrect := true, fileNamesCorrect := true,
            noKgxValidationErrors := true } ∧
    ¬(["foo.tsv", "bar.tsv"] = ["merged-kg_edges.tsv", "merged-kg_nodes.tsv"] ∨
      ["foo.tsv", "bar.tsv"] = ["merged-kg_nodes.tsv", "merged-kg_edges.tsv"]) := by
  decide

/-! ## C8: exception handling around the deep KGX validation

Only `TypeError` is caught (line 268); any other exception from
`kgx.cli.validate` propagates out of `validate_merged_graph`, aborting
the run, and skips the final `shutil.rmtree(temp_dir)` (line 272),
because there is no `finally`.  The claim holds as amended to
`TypeError`. -/

/-- C8 counterexample — A deep-validation call that raises an
exception other than `TypeError` is not caught: `validate_merged_graph`
re-raises it (so the run does not continue with the next build) and the
scratch download directory is not removed on that exit path. -/
theorem claim_C8_counterexample :
    validate_merged_graph "kg-example/20230101/kg-example.tar.gz"
      ["merged-kg_edges.tsv", "merged-kg_nodes.tsv"]
      (.error (.otherError "validator crash")) =
    (.error (.otherError "validator crash"), false) := by
  decide

/-- C8 amended — For every bundle validation in which the deep
KGX validation call raises a `TypeError`, the exception is caught and
logged, the bundle's "no KGX validation errors" flag stays false, the
run continues with the next build (the call returns normally), and the
scratch download directory is removed on that exit path, as it is on
the early abort for more than two members and on every other
normally-returning exit path of the bundle validator. -/
theorem claim_C8 (graph_key : String) (contents : List String) (msg : String)
    (hkey : (pyGet (pySplit graph_key "/") 1).isSome)
    (hcount : ¬contents.length > 2)
    (hdeny : (pySplit graph_key "/").headD "" ∉ VALIDATION_DENYLIST) :
    (∃ results,
      validate_merged_graph graph_key contents (.error (.typeError msg)) = (.ok results, true) ∧
      results.noKgxValidationErrors = false) ∧
    (∀ contents2 kgx, contents2.length > 2 →
      validate_merged_graph graph_key contents2 kgx =
        (.ok { fileCountCorrect := false, fileNamesCorrect := false,
               noKgxValidationErrors := false }, true)) ∧
    (∀ contents2 kgx results,
      (validate_merged_graph graph_key contents2 kgx).1 = .ok results →
      (validate_merged_graph graph_key contents2 kgx).2 = true) := by
  obtain ⟨b, hb⟩ := Option.isSome_iff_exists.mp hkey
  refine ⟨?_, ?_, ?_⟩
  · simp only [validate_merged_graph, hb]
    rw [if_neg hcount, if_pos hdeny]
    exact ⟨_, rfl, by split <;> rfl⟩
  · intro contents2 kgx h2
    simp only [validate_merged_graph, hb]
    rw [if_pos h2]
  · intro contents2 kgx results
    simp only [validate_merged_graph, hb]
    by_cases h2 : contents2.length > 2
    · rw [if_pos h2]
      intro
      rfl
    · rw [if_neg h2, if_pos hdeny]
      cases kgx with
      | ok errors =>
        dsimp only
        by_cases herr : errors.length > 0
        · rw [if_pos herr]
          intro
          rfl
        · rw [if_neg herr]
          intro
          rfl
      | error e =>
        cases e <;> first
          | (intro _; rfl)
          | (intro hcontra; cases hcontra)

/-- Closed instance of `claim_C8`. -/
theorem claim_C8_witness :
    (∃ results,
      validate_merged_graph "kg-example/20230101/kg-example.tar.gz"
          ["merged-kg_edges.tsv", "merged-kg_nodes.tsv"]
          (.error (.typeError "object of type NoneType has no len")) = (.ok results, true) ∧
      results.noKgxValidationErrors = false) ∧
    (∀ contents2 kgx, contents2.length > 2 →
      validate_merged_graph "kg-example/20230101/kg-example.tar.gz" contents2 kgx =
        (.ok { fileCountCorrect := false, fileNamesCorrect := false,
               noKgxValidationErrors := false }, true)) ∧
    (∀ contents2 kgx results,
      (validate_merged_graph "kg-example/20230101/kg-example.tar.gz" contents2 kgx).1 = .ok results →
      (validate_merged_graph "kg-example/20230101/kg-example.tar.gz" contents2 kgx).2 = true) :=
  claim_C8 _ _ _ (by decide) (by decide) (by decide)

/-! ## C10: partiality of the Statistics Enricher -/

/-- C10 — `get_stats` splits every record's object key and reads
the fourth slash-separated component (`object_key.split("/")[3]`)
before testing the `compression` field, so a record whose key has fewer
than three slash-separated segments — here a `nodes.tsv` directly under
a project root, a plain `DataResource` with `compression = none` that
the enricher would otherwise have skipped — raises an uncaught
`IndexError` instead of leaving the record unenriched, whatever the
stats retriever would have answered. -/
theorem claim_C10 :
    ∀ statsOf : String → Option Stats,
      get_stats statsOf
        [{ id := "https://kg-hub.berkeleybop.io/someproject/nodes.tsv" }] =
        .error .indexError ∧
      ({ id := "https://kg-hub.berkeleybop.io/someproject/nodes.tsv" } : Record).compression =
        none := by
  intro statsOf
  exact ⟨rfl, rfl⟩

/-! ## C9: the Liveness Checker is a pure `obsolete` re-probe -/

theorem forall₂_eq_map {R : α → β → Prop} {l : List α} {l' : List β}
    (h : List.Forall₂ R l l') (f : α → β)
    (hf : ∀ a b, R a b → b = f a) : l' = l.map f := by
  induction h with
  | nil => rfl
  | cons hab _ ih => simp only [List.map_cons, ih, hf _ _ hab]

theorem checkUrlsOne_ok {probe : String → Bool} {object r : Record}
    (h : checkUrlsOne probe object = .ok r) :
    r = { object with
          obsolete := some (if probe ((pyGet (pySplit object.id urlBase) 1).getD "")
                            then "False" else "True") } := by
  unfold checkUrlsOne at h
  cases hk : pyGet (pySplit object.id urlBase) 1 with
  | none => rw [hk] at h; cases h
  | some object_key =>
    rw [hk] at h
    dsimp only at h
    by_cases hp : probe object_key = true
    · rw [if_pos hp] at h
      cases h
      simp [hp]
    · rw [if_neg hp] at h
      cases h
      simp [hp]

/-- C9 — Whenever the Liveness Checker completes, the result is the
input record list transformed in place: same number and order of
records, each record's `obsolete` field set to `"False"` (the code's
false) when the existence probe of its reconstructed storage key
succeeds — re-asserting it even if it was previously `"True"` — and to
`"True"` when the probe fails, with every other field unchanged. -/
theorem claim_C9 (probe : String → Bool) (data_objects l : List Record)
    (h : check_urls probe data_objects = .ok l) :
    l = data_objects.map (fun object =>
      { object with
        obsolete := some (if probe ((pyGet (pySplit object.id urlBase) 1).getD "")
                          then "False" else "True") }) := by
  unfold check_urls at h
  rw [exceptMap_ok_iff] at h
  exact forall₂_eq_map h _ (fun a b hab => checkUrlsOne_ok hab)

/-- Closed instance of `claim_C9`: the first record's object reappeared
(previously `"True"`, re-probed to `"False"`), the second's object is
gone (probed to `"True"`); nothing else changes. -/
theorem claim_C9_witness :
    ([{ id := "https://kg-hub.berkeleybop.io/alpha/20230101/x.tar.gz",
        compression := some "tar.gz", obsolete := some "False" },
      { id := "https://kg-hub.berkeleybop.io/beta/20230101/nodes.tsv",
        obsolete := some "True" }] : List Record) =
      ([{ id := "https://kg-hub.berkeleybop.io/alpha/20230101/x.tar.gz",
          compression := some "tar.gz", obsolete := some "True" },
        { id := "https://kg-hub.berkeleybop.io/beta/20230101/nodes.tsv" }] : List Record).map
        (fun object =>
          { object with
            obsolete := some (if (fun k => k == "alpha/20230101/x.tar.gz") ((pyGet (pySplit object.id urlBase) 1).getD "")
                              then "False" else "True") }) :=
  claim_C9 (fun k => k == "alpha/20230101/x.tar.gz") _ _ (by decide)

/-! ## C1: the Record Builder output -/

theorem applyOboMetaStep_id (ont_id : String) (d : Record) (o : OntologyMeta) :
    (applyOboMetaStep ont_id d o).id = d.id := by
  unfold applyOboMetaStep
  split
  · split
    · rfl
    · split
      · rfl
      · rfl
  · rfl

theorem applyOboMeta_id (obo : List OntologyMeta) (ont_id : String) (d : Record) :
    (applyOboMeta obo ont_id d).id = d.id := by
  unfold applyOboMeta
  induction obo generalizing d with
  | nil => rfl
  | cons o os ih =>
    rw [List.foldl_cons, ih]
    exact applyOboMetaStep_id ont_id d o

theorem applyVersionDescription_id (projects : List (String × String)) (parts : List String)
    (d : Record) : (applyVersionDescription projects parts d).id = d.id := by
  unfold applyVersionDescription
  split
  · split
    · rfl
    · rfl
  · rfl

theorem applyConformsTo_id (project_contents : List (String × ProjectContents))
    (project_name build_name : String) (d : Record) :
    (applyConformsTo project_contents project_name build_name d).id = d.id := by
  unfold applyConformsTo
  split
  · split
    · rfl
    · rfl
  · rfl

theorem applyTransformSource_id (parts : List String) (d : Record) :
    (applyTransformSource parts d).id = d.id := by
  unfold applyTransformSource
  split
  · split
    · rfl
    · rfl
  · rfl

theorem buildRecord_ok_id {projects : List (String × String)} {obo : List OntologyMeta}
    {project_contents : List (String × ProjectContents)} {isCompressed : Bool}
    {object : String} {r : Record}
    (h : buildRecord projects obo project_contents isCompressed object = .ok r) :
    r.id = keyUrl object := by
  unfold buildRecord at h
  dsimp only at h
  cases hp : pyGet (pySplit object "/") 1 with
  | none => rw [hp] at h; cases h
  | some build_name =>
    rw [hp] at h
    cases h
    rw [applyTransformSource_id, applyConformsTo_id]
    by_cases hic : isCompressed = true
    · rw [if_pos hic]
      split
      · rw [applyOboMeta_id, applyVersionDescription_id]
      · rw [applyVersionDescription_id]
    · rw [if_neg hic]

theorem create_dataset_objects_ok {g : GraphFileKeys} {obo : List OntologyMeta}
    {projects : List (String × String)} {project_contents : List (String × ProjectContents)}
    {previous_manifest l : List Record}
    (h : create_dataset_objects g obo projects project_contents previous_manifest = .ok l) :
    ∃ news, l = previous_manifest ++ news ∧
      news.map (fun r => r.id) = (g.compressed ++ g.uncompressed).map keyUrl := by
  unfold create_dataset_objects at h
  cases hc : exceptMap (buildRecord projects obo project_contents true) g.compressed with
  | error e => rw [hc] at h; cases h
  | ok compressedRecords =>
    rw [hc] at h
    cases hu : exceptMap (buildRecord projects obo project_contents false) g.uncompressed with
    | error e => rw [hu] at h; cases h
    | ok uncompressedRecords =>
      rw [hu] at h
      cases h
      refine ⟨compressedRecords ++ uncompressedRecords, List.append_assoc _ _ _, ?_⟩
      rw [List.map_append, List.map_append]
      congr 1
      · exact forall₂_map_eq (exceptMap_ok_iff.mp hc) keyUrl (fun r => r.id)
          (fun a b hab => buildRecord_ok_id hab)
      · exact forall₂_map_eq (exceptMap_ok_iff.mp hu) keyUrl (fun r => r.id)
          (fun a b hab => buildRecord_ok_id hab)

theorem get_graph_file_keys_zero (keys : List String) (previous_manifest : List Record) :
    get_graph_file_keys keys (some 0) previous_manifest = classifyKeys keys previous_manifest :=
  rfl

theorem gfk_compressed_sublist (keys : List String) (maximum : Option Nat)
    (previous_manifest : List Record) :
    (get_graph_file_keys keys maximum previous_manifest).compressed.Sublist
      (classifyKeys keys previous_manifest).compressed := by
  cases maximum with
  | none => rw [get_graph_file_keys_none]
  | some m =>
    by_cases hm : m = 0
    · subst hm
      rw [get_graph_file_keys_zero]
    · rw [get_graph_file_keys_some keys previous_manifest hm]
      exact List.take_sublist _ _

theorem gfk_uncompressed_sublist (keys : List String) (maximum : Option Nat)
    (previous_manifest : List Record) :
    (get_graph_file_keys keys maximum previous_manifest).uncompressed.Sublist
      (classifyKeys keys previous_manifest).uncompressed := by
  cases maximum with
  | none => rw [get_graph_file_keys_none]
  | some m =>
    by_cases hm : m = 0
    · subst hm
      rw [get_graph_file_keys_zero]
    · rw [get_graph_file_keys_some keys previous_manifest hm]
      dsimp only
      split
      · exact List.take_sublist _ _
      · exact List.nil_sublist _

/-- C1 — If the previous manifest's record ids are pairwise
distinct (and the listing, being a bucket enumeration, has pairwise
distinct keys), then whenever the Record Builder completes on the
classifier's output, the produced list is the previous records first,
unchanged, followed by exactly one fresh record per newly classified
key in classification order (ids are the reconstructed URLs,
compressed keys before uncompressed ones), and all ids are pairwise
distinct. -/
theorem claim_C1 (keys : List String) (maximum : Option Nat)
    (previous_manifest : List Record) (obo : List OntologyMeta)
    (projects : List (String × String))
    (project_contents : List (String × ProjectContents))
    (hprev : (previous_manifest.map (fun r => r.id)).Nodup)
    (hkeys : keys.Nodup) :
    ∀ l, create_dataset_objects (get_graph_file_keys keys maximum previous_manifest) obo
          projects project_contents previous_manifest = .ok l →
      ∃ news, l = previous_manifest ++ news ∧
        news.map (fun r => r.id) =
          ((get_graph_file_keys keys maximum previous_manifest).compressed ++
            (get_graph_file_keys keys maximum previous_manifest).uncompressed).map keyUrl ∧
        (l.map (fun r => r.id)).Nodup := by
  intro l h
  obtain ⟨news, hl, hids⟩ := create_dataset_objects_ok h
  refine ⟨news, hl, hids, ?_⟩
  subst hl
  rw [List.map_append, hids]
  set g := get_graph_file_keys keys maximum previous_manifest with hg
  have hcsub := gfk_compressed_sublist keys maximum previous_manifest
  have husub := gfk_uncompressed_sublist keys maximum previous_manifest
  rw [← hg] at hcsub husub
  have hcnodup : g.compressed.Nodup := by
    refine List.Sublist.nodup (hcsub.trans ?_) hkeys
    exact (List.filter_sublist _)
  have hunodup : g.uncompressed.Nodup := by
    refine List.Sublist.nodup (husub.trans ?_) hkeys
    exact (List.filter_sublist _)
  have hcls : ∀ k ∈ g.compressed ++ g.uncompressed,
      keyKept (previous_manifest.map (fun object => object.id)) k = true := by
    intro k hk
    rcases List.mem_append.mp hk with hk | hk
    · exact (mem_classifyKeys_compressed.mp (hcsub.subset hk)).2.1
    · exact (mem_classifyKeys_uncompressed.mp (husub.subset hk)).2.1
  have hdisj : List.Disjoint g.compressed g.uncompressed := by
    intro k hk1 hk2
    exact not_compressed_and_uncompressed k
      ⟨(mem_classifyKeys_compressed.mp (hcsub.subset hk1)).2.2,
       (mem_classifyKeys_uncompressed.mp (husub.subset hk2)).2.2⟩
  have hclsnodup : (g.compressed ++ g.uncompressed).Nodup :=
    List.Nodup.append hcnodup hunodup hdisj
  rw [List.nodup_append]
  refine ⟨hprev, List.Nodup.map keyUrl_injective hclsnodup, ?_⟩
  intro x hx hy
  rcases List.mem_map.mp hy with ⟨k, hk, hky⟩
  have hkept := hcls k hk
  unfold keyKept at hkept
  rw [Bool.and_eq_true, decide_eq_true_eq, decide_eq_true_eq] at hkept
  rw [← hky] at hx
  exact hkept.1 hx

/-- Closed instance of `claim_C1`. -/
theorem claim_C1_witness :
    (([{ id := "https://kg-hub.berkeleybop.io/old/20220101/old.tar.gz",
         compression := some "tar.gz" }] : List Record).map (fun r => r.id)).Nodup ∧
    (["kg-example/20230101/kg-example.tar.gz",
      "kg-example/20230101/merged-kg_nodes.tsv"] : List String).Nodup ∧
    (∃ news : List Record,
      ([{ id := "https://kg-hub.berkeleybop.io/old/20220101/old.tar.gz",
          compression := some "tar.gz" },
        { id := "https://kg-hub.berkeleybop.io/kg-example/20230101/kg-example.tar.gz",
          title := "kg-example.tar.gz", compression := some "tar.gz",
          resources := ["merged-kg_edges.tsv", "merged-kg_nodes.tsv"] },
        { id := "https://kg-hub.berkeleybop.io/kg-example/20230101/merged-kg_nodes.tsv",
          title := "merged-kg_nodes.tsv" }] : List Record) =
        ([{ id := "https://kg-hub.berkeleybop.io/old/20220101/old.tar.gz",
            compression := some "tar.gz" }] : List Record) ++ news ∧
      news.map (fun r => r.id) =
        ((get_graph_file_keys
            ["kg-example/20230101/kg-example.tar.gz",
             "kg-example/20230101/merged-kg_nodes.tsv"] none
            [{ id := "https://kg-hub.berkeleybop.io/old/20220101/old.tar.gz",
               compression := some "tar.gz" }]).compressed ++
          (get_graph_file_keys
            ["kg-example/20230101/kg-example.tar.gz",
             "kg-example/20230101/merged-kg_nodes.tsv"] none
            [{ id := "https://kg-hub.berkeleybop.io/old/20220101/old.tar.gz",
               compression := some "tar.gz" }]).uncompressed).map keyUrl ∧
      (([{ id := "https://kg-hub.berkeleybop.io/old/20220101/old.tar.gz",
           compression := some "tar.gz" },
         { id := "https://kg-hub.berkeleybop.io/kg-example/20230101/kg-example.tar.gz",
           title := "kg-example.tar.gz", compression := some "tar.gz",
           resources := ["merged-kg_edges.tsv", "merged-kg_nodes.tsv"] },
         { id := "https://kg-hub.berkeleybop.io/kg-example/20230101/merged-kg_nodes.tsv",
           title := "merged-kg_nodes.tsv" }] : List Record).map (fun r => r.id)).Nodup) :=
  ⟨by decide, by decide,
   claim_C1 _ none _ [] [] [] (by decide) (by decide) _ (by decide)⟩

/-! ## C3: the per-build validity decision -/

theorem structLoop_fst (keys : List String) (project_name build_name : String)
    (ds : List String) :
    ∀ v pc, (structLoop keys project_name build_name (v, pc) ds).1 =
      (v && ds.all (fun dir_type => markerPresent keys project_name build_name dir_type)) := by
  induction ds with
  | nil =>
    intro v pc
    simp [structLoop]
  | cons d rest ih =>
    intro v pc
    unfold structLoop
    by_cases hd : markerPresent keys project_name build_name d = true
    · rw [if_pos hd, ih]
      simp [hd]
    · rw [if_neg hd, ih]
      simp [Bool.eq_false_iff.mpr hd]

theorem structLoop_validBuilds (keys : List String) (project_name build_name : String)
    (ds : List String) :
    ∀ v pc, (structLoop keys project_name build_name (v, pc) ds).2.validBuilds =
      pc.validBuilds := by
  induction ds with
  | nil =>
    intro v pc
    rfl
  | cons d rest ih =>
    intro v pc
    unfold structLoop
    by_cases hd : markerPresent keys project_name build_name d = true
    · rw [if_pos hd, ih]
    · rw [if_neg hd, ih]
      split
      · rfl
      · rfl

theorem processBuildTail_spec (keys compressedKeys : List String)
    (bundleContents : String → List String)
    (kgxOutcome : String → Except PyError (List String))
    (project_name build_name : String) (v2 : Bool) (p2 pc' : ProjectContents)
    (h : processBuildTail keys compressedKeys bundleContents kgxOutcome
          project_name build_name (v2, p2) = .ok pc') :
    (pc'.validBuilds = p2.validBuilds ++ [build_name] ↔
      (v2 = true ∧ ∃ merged_graph_key results,
        findMergedGraphKey compressedKeys project_name build_name = .ok merged_graph_key ∧
        merged_graph_key ≠ "" ∧
        (validate_merged_graph merged_graph_key (bundleContents merged_graph_key)
          (kgxOutcome merged_graph_key)).1 = .ok results ∧
        results.fileCountCorrect = true ∧ results.fileNamesCorrect = true)) ∧
    (pc'.validBuilds = p2.validBuilds ++ [build_name] ∨ pc'.validBuilds = p2.validBuilds) := by
  have happend : p2.validBuilds ≠ p2.validBuilds ++ [build_name] := by
    intro hcontra
    have := congrArg List.length hcontra
    simp at this
  unfold processBuildTail at h
  cases hf : findMergedGraphKey compressedKeys project_name build_name with
  | error e => rw [hf] at h; cases h
  | ok merged_graph_key =>
    rw [hf] at h
    dsimp only at h
    by_cases hempty : (merged_graph_key == "") = true
    · rw [if_pos hempty] at h
      cases h
      refine ⟨⟨fun hcontra => absurd hcontra happend, ?_⟩, Or.inr rfl⟩
      rintro ⟨-, k, r, hk, hne, -⟩
      cases hk
      exact absurd (beq_iff_eq.mp hempty) hne
    · rw [if_neg hempty] at h
      cases hv : (validate_merged_graph merged_graph_key (bundleContents merged_graph_key)
          (kgxOutcome merged_graph_key)).1 with
      | error e => rw [hv] at h; cases h
      | ok results =>
        rw [hv] at h
        dsimp only at h
        by_cases hbad : (!(results.fileCountCorrect && results.fileNamesCorrect)) = true
        · rw [if_pos hbad] at h
          dsimp only at h
          rw [if_neg Bool.false_ne_true] at h
          cases h
          dsimp only
          refine ⟨⟨fun hcontra => absurd hcontra happend, ?_⟩, Or.inr rfl⟩
          rintro ⟨-, k, r, hk, -, hr, hc1, hc2⟩
          cases hk
          rw [hv] at hr
          cases hr
          rw [hc1, hc2] at hbad
          simp at hbad
        · rw [if_neg hbad] at h
          dsimp only at h
          have hcn : results.fileCountCorrect = true ∧ results.fileNamesCorrect = true := by
            cases hc1 : results.fileCountCorrect <;> cases hc2 : results.fileNamesCorrect <;>
              rw [hc1, hc2] at hbad <;> simp_all
          by_cases hval : v2 = true
          · rw [if_pos hval] at h
            cases h
            dsimp only
            refine ⟨⟨fun _ => ?_, fun _ => rfl⟩, Or.inl rfl⟩
            exact ⟨hval, merged_graph_key, results, rfl,
              fun hc => hempty (beq_iff_eq.mpr hc), hv, hcn.1, hcn.2⟩
          · rw [if_neg hval] at h
            cases h
            refine ⟨⟨fun hcontra => absurd hcontra happend, ?_⟩, Or.inr rfl⟩
            rintro ⟨hvv, -⟩
            exact absurd hvv hval

/-- C3 amended — For every candidate build examined by the Build
Validator (`processBuild` is the per-build body executed for exactly
those builds), the build is added to the project's "valid builds" list
iff its name is accepted by `datetime.strptime(·, '%Y%m%d')` — four
year digits followed by one- or two-digit month and day fields forming
a valid date, so six- and seven-digit names are accepted too, not only
8-digit `YYYYMMDD` ones as the original claim stated — all three
subdirectory index markers are present in the key listing, a
compressed bundle for that project and build is found among the newly
classified keys, and that bundle passes both the file-count and
file-name checks.  The deep KGX flag (`noKgxValidationErrors`) does
not occur in the condition: its failure never by itself excludes a
build, while a bundle with more than two members yields
`fileCountCorrect = false` and is excluded regardless of the other
checks. -/
theorem claim_C3 (keys compressedKeys : List String)
    (bundleContents : String → List String)
    (kgxOutcome : String → Except PyError (List String))
    (project_name build_name : String) (pc pc' : ProjectContents)
    (h : processBuild keys compressedKeys bundleContents kgxOutcome
          project_name build_name pc = .ok pc') :
    (pc'.validBuilds = pc.validBuilds ++ [build_name] ↔
      (validate_build_name build_name = true ∧
       (["raw", "stats", "transformed"].all
         (fun dir_type => markerPresent keys project_name build_name dir_type)) = true ∧
       ∃ merged_graph_key results,
         findMergedGraphKey compressedKeys project_name build_name = .ok merged_graph_key ∧
         merged_graph_key ≠ "" ∧
         (validate_merged_graph merged_graph_key (bundleContents merged_graph_key)
           (kgxOutcome merged_graph_key)).1 = .ok results ∧
         results.fileCountCorrect = true ∧ results.fileNamesCorrect = true)) ∧
    (pc'.validBuilds = pc.validBuilds ++ [build_name] ∨ pc'.validBuilds = pc.validBuilds) := by
  unfold processBuild at h
  by_cases hn : validate_build_name build_name = true
  · rw [if_pos hn] at h
    rcases hsl : structLoop keys project_name build_name (true, pc)
        ["raw", "stats", "transformed"] with ⟨v2, p2⟩
    rw [hsl] at h
    have hv2 : v2 = (true && ["raw", "stats", "transformed"].all
        (fun dir_type => markerPresent keys project_name build_name dir_type)) := by
      have := structLoop_fst keys project_name build_name ["raw", "stats", "transformed"] true pc
      rw [hsl] at this
      exact this
    have hp2 : p2.validBuilds = pc.validBuilds := by
      have := structLoop_validBuilds keys project_name build_name
        ["raw", "stats", "transformed"] true pc
      rw [hsl] at this
      exact this
    obtain ⟨hiff, hor⟩ := processBuildTail_spec keys compressedKeys bundleContents kgxOutcome
      project_name build_name v2 p2 pc' h
    rw [hp2] at hiff hor
    refine ⟨?_, hor⟩
    rw [hiff]
    constructor
    · rintro ⟨hvv, rest⟩
      refine ⟨hn, ?_, rest⟩
      rw [hv2] at hvv
      simpa using hvv
    · rintro ⟨-, hall, rest⟩
      refine ⟨?_, rest⟩
      rw [hv2, hall]
      rfl
  · rw [if_neg hn] at h
    rcases hsl : structLoop keys project_name build_name
        (false, { pc with incorrectlyNamedBuilds := pc.incorrectlyNamedBuilds ++ [build_name] })
        ["raw", "stats", "transformed"] with ⟨v2, p2⟩
    rw [hsl] at h
    have hv2 : v2 = false := by
      have := structLoop_fst keys project_name build_name ["raw", "stats", "transformed"] false
        { pc with incorrectlyNamedBuilds := pc.incorrectlyNamedBuilds ++ [build_name] }
      rw [hsl] at this
      simpa using this
    have hp2 : p2.validBuilds = pc.validBuilds := by
      have := structLoop_validBuilds keys project_name build_name
        ["raw", "stats", "transformed"] false
        { pc with incorrectlyNamedBuilds := pc.incorrectlyNamedBuilds ++ [build_name] }
      rw [hsl] at this
      exact this
    obtain ⟨hiff, hor⟩ := processBuildTail_spec keys compressedKeys bundleContents kgxOutcome
      project_name build_name v2 p2 pc' h
    rw [hp2] at hiff hor
    refine ⟨?_, hor⟩
    rw [hiff]
    constructor
    · rintro ⟨hvv, -⟩
      rw [hv2] at hvv
      cases hvv
    · rintro ⟨hnn, -⟩
      exact absurd hnn hn

/-- Closed instance of `claim_C3`: a fully valid build. -/
theorem claim_C3_witness :
    (({ validBuilds := ["20230101"] } : ProjectContents).validBuilds =
        ({} : ProjectContents).validBuilds ++ ["20230101"] ↔
      (validate_build_name "20230101" = true ∧
       (["raw", "stats", "transformed"].all
         (fun dir_type => markerPresent
           ["kg-example/20230101/raw/index.html", "kg-example/20230101/stats/index.html",
            "kg-example/20230101/transformed/index.html",
            "kg-example/20230101/kg-example.tar.gz"] "kg-example" "20230101" dir_type)) = true ∧
       ∃ merged_graph_key results,
         findMergedGraphKey ["kg-example/20230101/kg-example.tar.gz"] "kg-example" "20230101" =
           .ok merged_graph_key ∧
         merged_graph_key ≠ "" ∧
         (validate_merged_graph merged_graph_key
           ((fun _ => ["merged-kg_edges.tsv", "merged-kg_nodes.tsv"]) merged_graph_key)
           ((fun _ => Except.ok []) merged_graph_key)).1 = .ok results ∧
         results.fileCountCorrect = true ∧ results.fileNamesCorrect = true)) ∧
    (({ validBuilds := ["20230101"] } : ProjectContents).validBuilds =
        ({} : ProjectContents).validBuilds ++ ["20230101"] ∨
     ({ validBuilds := ["20230101"] } : ProjectContents).validBuilds =
        ({} : ProjectContents).validBuilds) :=
  claim_C3
    ["kg-example/20230101/raw/index.html", "kg-example/20230101/stats/index.html",
     "kg-example/20230101/transformed/index.html", "kg-example/20230101/kg-example.tar.gz"]
    ["kg-example/20230101/kg-example.tar.gz"]
    (fun _ => ["merged-kg_edges.tsv", "merged-kg_nodes.tsv"])
    (fun _ => Except.ok [])
    "kg-example" "20230101" {} { validBuilds := ["20230101"] } (by decide)

/-- C3 counterexample to the original claim: the six-character build
name `202311` is accepted by `datetime.strptime(·, '%Y%m%d')` (it
parses as 2023-01-01, month field `1`, day field `1`), so
`processBuild` adds the build to "valid builds" although its name is
not an 8-digit `YYYYMMDD` date, refuting the original iff at this
input. -/
theorem claim_C3_counterexample :
    processBuild
      ["kg-example/202311/raw/index.html", "kg-example/202311/stats/index.html",
       "kg-example/202311/transformed/index.html", "kg-example/202311/kg-example.tar.gz"]
      ["kg-example/202311/kg-example.tar.gz"]
      (fun _ => ["merged-kg_edges.tsv", "merged-kg_nodes.tsv"])
      (fun _ => Except.ok [])
      "kg-example" "202311" {} = .ok { validBuilds := ["202311"] } ∧
    validate_build_name "202311" = true ∧
    ¬ ("202311" : String).data.length = 8 := by decide

/-! ## C7: which builds the Build Validator examines

The skip guard at line 346 tests membership of the build name in
`graph_file_key_builds`, the list of second path segments of **all**
newly classified keys, across every project.  A build of project A
whose name coincides with a fresh build of project B is therefore
examined even though no newly classified key of project A lies under
it; the claim is amended accordingly. -/

theorem forall₂_mem_right {R : α → β → Prop} {l : List α} {l' : List β}
    (h : List.Forall₂ R l l') {b : β} (hb : b ∈ l') : ∃ a, a ∈ l ∧ R a b := by
  induction h with
  | nil => cases hb
  | cons hab hrest ih =>
    rcases List.mem_cons.mp hb with hb | hb
    · exact ⟨_, List.mem_cons_self _ _, hb ▸ hab⟩
    · rcases ih hb with ⟨a, hal, har⟩
      exact ⟨a, List.mem_cons_of_mem _ hal, har⟩

theorem graphFileKeyBuilds_mem {g : GraphFileKeys} {builds_list : List String} {b : String}
    (h : graphFileKeyBuilds g = .ok builds_list) (hb : b ∈ builds_list) :
    ∃ k, k ∈ graphFileKeyAll g ∧ pyGet (pySplit k "/") 1 = some b := by
  unfold graphFileKeyBuilds at h
  rw [exceptMap_ok_iff] at h
  rcases forall₂_mem_right h hb with ⟨k, hk, hr⟩
  refine ⟨k, hk, ?_⟩
  cases hg : pyGet (pySplit k "/") 1 with
  | none => rw [hg] at hr; cases hr
  | some x => rw [hg] at hr; cases hr; rfl

/-- Membership in the four per-build classification lists. -/
def memBuildLists (x : String) (pc : ProjectContents) : Prop :=
  x ∈ pc.validBuilds ∨ x ∈ pc.incorrectlyNamedBuilds ∨
  x ∈ pc.incorrectlyStructuredBuilds ∨ x ∈ pc.buildsWithIssuesInTarGz

theorem structLoop_buildLists (keys : List String) (project_name build_name : String)
    (ds : List String) :
    ∀ v pc x, memBuildLists x (structLoop keys project_name build_name (v, pc) ds).2 →
      memBuildLists x pc ∨ x = build_name := by
  induction ds with
  | nil =>
    intro v pc x hx
    exact Or.inl hx
  | cons d rest ih =>
    intro v pc x hx
    unfold structLoop at hx
    by_cases hd : markerPresent keys project_name build_name d = true
    · rw [if_pos hd] at hx
      exact ih v pc x hx
    · rw [if_neg hd] at hx
      rcases ih _ _ x hx with hmem | heq
      · by_cases hin : build_name ∈ pc.incorrectlyStructuredBuilds
        · rw [if_pos hin] at hmem
          exact Or.inl hmem
        · rw [if_neg hin] at hmem
          unfold memBuildLists at hmem ⊢
          rcases hmem with h1 | h2 | h3 | h4
          · exact Or.inl (Or.inl h1)
          · exact Or.inl (Or.inr (Or.inl h2))
          · rcases List.mem_append.mp h3 with h3 | h3
            · exact Or.inl (Or.inr (Or.inr (Or.inl h3)))
            · exact Or.inr (List.mem_singleton.mp h3)
          · exact Or.inl (Or.inr (Or.inr (Or.inr h4)))
      · exact Or.inr heq

theorem processBuildTail_buildLists (keys compressedKeys : List String)
    (bundleContents : String → List String)
    (kgxOutcome : String → Except PyError (List String))
    (project_name build_name : String) (acc : Bool × ProjectContents)
    (pc' : ProjectContents)
    (h : processBuildTail keys compressedKeys bundleContents kgxOutcome
          project_name build_name acc = .ok pc') :
    ∀ x, memBuildLists x pc' → memBuildLists x acc.2 ∨ x = build_name := by
  intro x hx
  unfold processBuildTail at h
  cases hf : findMergedGraphKey compressedKeys project_name build_name with
  | error e => rw [hf] at h; cases h
  | ok merged_graph_key =>
    rw [hf] at h
    dsimp only at h
    by_cases hempty : (merged_graph_key == "") = true
    · rw [if_pos hempty] at h
      cases h
      exact Or.inl hx
    · rw [if_neg hempty] at h
      cases hv : (validate_merged_graph merged_graph_key (bundleContents merged_graph_key)
          (kgxOutcome merged_graph_key)).1 with
      | error e => rw [hv] at h; cases h
      | ok results =>
        rw [hv] at h
        dsimp only at h
        by_cases hbad : (!(results.fileCountCorrect && results.fileNamesCorrect)) = true
        · rw [if_pos hbad] at h
          dsimp only at h
          rw [if_neg Bool.false_ne_true] at h
          cases h
          unfold memBuildLists at hx ⊢
          rcases hx with h1 | h2 | h3 | h4
          · exact Or.inl (Or.inl h1)
          · exact Or.inl (Or.inr (Or.inl h2))
          · exact Or.inl (Or.inr (Or.inr (Or.inl h3)))
          · rcases List.mem_append.mp h4 with h4 | h4
            · exact Or.inl (Or.inr (Or.inr (Or.inr h4)))
            · exact Or.inr (List.mem_singleton.mp h4)
        · rw [if_neg hbad] at h
          by_cases hval : acc.1 = true
          · rw [if_pos hval] at h
            cases h
            unfold memBuildLists at hx ⊢
            rcases hx with h1 | h2 | h3 | h4
            · rcases List.mem_append.mp h1 with h1 | h1
              · exact Or.inl (Or.inl h1)
              · exact Or.inr (List.mem_singleton.mp h1)
            · exact Or.inl (Or.inr (Or.inl h2))
            · exact Or.inl (Or.inr (Or.inr (Or.inl h3)))
            · exact Or.inl (Or.inr (Or.inr (Or.inr h4)))
          · rw [if_neg hval] at h
            cases h
            exact Or.inl hx

theorem processBuild_buildLists (keys compressedKeys : List String)
    (bundleContents : String → List String)
    (kgxOutcome : String → Except PyError (List String))
    (project_name build_name : String) (pc pc' : ProjectContents)
    (h : processBuild keys compressedKeys bundleContents kgxOutcome
          project_name build_name pc = .ok pc') :
    ∀ x, memBuildLists x pc' → memBuildLists x pc ∨ x = build_name := by
  intro x hx
  unfold processBuild at h
  rcases processBuildTail_buildLists _ _ _ _ _ _ _ _ h x hx with hmem | heq
  · by_cases hn : validate_build_name build_name = true
    · rw [if_pos hn] at hmem
      rcases structLoop_buildLists keys project_name build_name
          ["raw", "stats", "transformed"] true pc x hmem with h2 | h2
      · exact Or.inl h2
      · exact Or.inr h2
    · rw [if_neg hn] at hmem
      rcases structLoop_buildLists keys project_name build_name
          ["raw", "stats", "transformed"] false
          { pc with incorrectlyNamedBuilds := pc.incorrectlyNamedBuilds ++ [build_name] }
          x hmem with h2 | h2
      · unfold memBuildLists at h2 ⊢
        rcases h2 with h1 | h2 | h3 | h4
        · exact Or.inl (Or.inl h1)
        · rcases List.mem_append.mp h2 with h2 | h2
          · exact Or.inl (Or.inr (Or.inl h2))
          · exact Or.inr (List.mem_singleton.mp h2)
        · exact Or.inl (Or.inr (Or.inr (Or.inl h3)))
        · exact Or.inl (Or.inr (Or.inr (Or.inr h4)))
      · exact Or.inr h2
  · exact Or.inr heq

theorem collectStep_fields (project_name : String) (pc : ProjectContents) (keyname : String) :
    (collectStep project_name pc keyname).validBuilds = pc.validBuilds ∧
    (collectStep project_name pc keyname).incorrectlyNamedBuilds = pc.incorrectlyNamedBuilds ∧
    (collectStep project_name pc keyname).incorrectlyStructuredBuilds = pc.incorrectlyStructuredBuilds ∧
    (collectStep project_name pc keyname).buildsWithIssuesInTarGz = pc.buildsWithIssuesInTarGz := by
  refine ⟨?_, ?_, ?_, ?_⟩
  all_goals
    unfold collectStep
    by_cases hk : ((pySplit keyname "/").headD "" == project_name) = true
    · rw [if_pos hk]
      dsimp only
      cases pyGet (pySplit keyname "/") 1 with
      | none => rfl
      | some b => split <;> first
        | (split <;> rfl)
        | rfl
    · rw [if_neg hk]

theorem collectBuilds_buildLists (project_name : String) (keys : List String) :
    ∀ x, ¬memBuildLists x (collectBuilds project_name keys) := by
  have haux : ∀ (ks : List String) (acc : ProjectContents),
      (ks.foldl (collectStep project_name) acc).validBuilds = acc.validBuilds ∧
      (ks.foldl (collectStep project_name) acc).incorrectlyNamedBuilds = acc.incorrectlyNamedBuilds ∧
      (ks.foldl (collectStep project_name) acc).incorrectlyStructuredBuilds = acc.incorrectlyStructuredBuilds ∧
      (ks.foldl (collectStep project_name) acc).buildsWithIssuesInTarGz = acc.buildsWithIssuesInTarGz := by
    intro ks
    induction ks with
    | nil => intro acc; exact ⟨rfl, rfl, rfl, rfl⟩
    | cons k rest ih =>
      intro acc
      rw [List.foldl_cons]
      rcases ih (collectStep project_name acc k) with ⟨h1, h2, h3, h4⟩
      rcases collectStep_fields project_name acc k with ⟨g1, g2, g3, g4⟩
      exact ⟨h1.trans g1, h2.trans g2, h3.trans g3, h4.trans g4⟩
  intro x hx
  unfold collectBuilds at hx
  unfold memBuildLists at hx
  rcases haux keys {} with ⟨h1, h2, h3, h4⟩
  rw [h1, h2, h3, h4] at hx
  rcases hx with hx | hx | hx | hx <;> cases hx

theorem buildLoop_inv (keys compressedKeys : List String)
    (bundleContents : String → List String)
    (kgxOutcome : String → Except PyError (List String))
    (project_name : String) (graph_file_key_builds : List String) :
    ∀ (builds : List String) (pc pc' : ProjectContents),
      buildLoop keys compressedKeys bundleContents kgxOutcome project_name
        graph_file_key_builds pc builds = .ok pc' →
      (∀ x, memBuildLists x pc → x ∈ graph_file_key_builds) →
      ∀ x, memBuildLists x pc' → x ∈ graph_file_key_builds := by
  intro builds
  induction builds with
  | nil =>
    intro pc pc' h hinv
    unfold buildLoop exceptFold at h
    cases h
    exact hinv
  | cons b rest ih =>
    intro pc pc' h hinv
    unfold buildLoop exceptFold at h
    by_cases hb : b ∉ graph_file_key_builds
    · rw [if_pos hb] at h
      exact ih pc pc' h hinv
    · rw [if_neg hb] at h
      cases hpb : processBuild keys compressedKeys bundleContents kgxOutcome
          project_name b pc with
      | error e => rw [hpb] at h; cases h
      | ok pcm =>
        rw [hpb] at h
        refine ih pcm pc' h ?_
        intro x hx
        rcases processBuild_buildLists _ _ _ _ _ _ _ _ hpb x hx with hmem | heq
        · exact hinv x hmem
        · rw [heq]
          exact not_not.mp hb

theorem projFold_inv (keys : List String) (graph_file_keys : GraphFileKeys)
    (bundleContents : String → List String)
    (kgxOutcome : String → Except PyError (List String))
    (graph_file_key_builds : List String) :
    ∀ (projects : List (String × String)) (acc res : List (String × ProjectContents)),
      exceptFold
        (projectStep keys graph_file_keys bundleContents kgxOutcome graph_file_key_builds)
        acc projects = .ok res →
      ((∀ pc, ("kg-obo", pc) ∉ acc) ∧
       ∀ project_name pc, (project_name, pc) ∈ acc →
         project_name ∈ graphFileKeyProjects graph_file_keys ∧
         ∀ x, memBuildLists x pc → x ∈ graph_file_key_builds) →
      (∀ pc, ("kg-obo", pc) ∉ res) ∧
      ∀ project_name pc, (project_name, pc) ∈ res →
        project_name ∈ graphFileKeyProjects graph_file_keys ∧
        ∀ x, memBuildLists x pc → x ∈ graph_file_key_builds := by
  intro projects
  induction projects with
  | nil =>
    intro acc res h hP
    unfold exceptFold at h
    cases h
    exact hP
  | cons project rest ih =>
    intro acc res h hP
    unfold exceptFold at h
    cases hstep : projectStep keys graph_file_keys bundleContents kgxOutcome
        graph_file_key_builds acc project with
    | error e => rw [hstep] at h; cases h
    | ok acc2 =>
      rw [hstep] at h
      refine ih acc2 res h ?_
      unfold projectStep at hstep
      by_cases h1 : (project.1 == "kg-obo") = true
      · rw [if_pos h1] at hstep
        cases hstep
        exact hP
      · rw [if_neg h1] at hstep
        by_cases h2 : project.1 ∉ graphFileKeyProjects graph_file_keys
        · rw [if_pos h2] at hstep
          cases hstep
          exact hP
        · rw [if_neg h2] at hstep
          dsimp only at hstep
          cases hbl : buildLoop keys graph_file_keys.compressed bundleContents kgxOutcome
              project.1 graph_file_key_builds (collectBuilds project.1 keys)
              (collectBuilds project.1 keys).builds with
          | error e => rw [hbl] at hstep; cases hstep
          | ok pcf =>
            rw [hbl] at hstep
            cases hstep
            constructor
            · intro pc hmem
              rcases List.mem_append.mp hmem with hmem | hmem
              · exact hP.1 pc hmem
              · have := List.mem_singleton.mp hmem
                have hname : project.1 = "kg-obo" := (congrArg Prod.fst this).symm
                exact h1 (beq_iff_eq.mpr hname)
            · intro project_name pc hmem
              rcases List.mem_append.mp hmem with hmem | hmem
              · exact hP.2 project_name pc hmem
              · have := List.mem_singleton.mp hmem
                have hname : project_name = project.1 := congrArg Prod.fst this
                have hpc : pc = pcf := congrArg Prod.snd this
                subst hname
                subst hpc
                refine ⟨not_not.mp h2, ?_⟩
                exact buildLoop_inv keys graph_file_keys.compressed bundleContents kgxOutcome
                  project.1 graph_file_key_builds (collectBuilds project.1 keys).builds
                  (collectBuilds project.1 keys) pc hbl
                  (fun x hx => absurd hx (collectBuilds_buildLists project.1 keys x))

/-- C7 amended — Whenever the Build Validator completes, the
ontology-derived project `kg-obo` has no report (it is never examined),
every reported project has at least one newly classified key, and every
build name occurring in any of a report's classification lists (i.e.
every examined build) is the second path segment of some newly
classified key — of *any* project, not necessarily the report's own:
the skip guard tests the global `graph_file_key_builds` list, so a
build of one project is examined whenever a fresh build of another
project has the same name. -/
theorem claim_C7 (projects : List (String × String)) (keys : List String)
    (graph_file_keys : GraphFileKeys)
    (bundleContents : String → List String)
    (kgxOutcome : String → Except PyError (List String))
    (res : List (String × ProjectContents))
    (h : validate_projects projects keys graph_file_keys bundleContents kgxOutcome = .ok res) :
    (∀ pc, ("kg-obo", pc) ∉ res) ∧
    ∀ project_name pc, (project_name, pc) ∈ res →
      project_name ∈ graphFileKeyProjects graph_file_keys ∧
      ∀ b, memBuildLists b pc →
        ∃ k, k ∈ graphFileKeyAll graph_file_keys ∧ pyGet (pySplit k "/") 1 = some b := by
  unfold validate_projects at h
  cases hb : graphFileKeyBuilds graph_file_keys with
  | error e => rw [hb] at h; cases h
  | ok graph_file_key_builds =>
    rw [hb] at h
    have hP := projFold_inv keys graph_file_keys bundleContents kgxOutcome
      graph_file_key_builds projects [] res h
      ⟨(fun pc hc => by cases hc), (fun p pc hc => by cases hc)⟩
    refine ⟨hP.1, ?_⟩
    intro project_name pc hmem
    refine ⟨(hP.2 project_name pc hmem).1, ?_⟩
    intro b hbmem
    exact graphFileKeyBuilds_mem hb ((hP.2 project_name pc hmem).2 b hbmem)

/-- Closed instance of `claim_C7` (amended). -/
theorem claim_C7_witness :
    (∀ pc, ("kg-obo", pc) ∉
      ([("projA", { objects := ["projA/20220101/x.tar.gz", "projA/oddbuild/old.txt"],
                    builds := ["20220101", "oddbuild"], validBuilds := [],
                    incorrectlyNamedBuilds := ["oddbuild"],
                    incorrectlyStructuredBuilds := ["20220101", "oddbuild"],
                    buildsWithIssuesInTarGz := [] }),
        ("projB", { objects := ["projB/oddbuild/y.tar.gz"], builds := ["oddbuild"],
                    validBuilds := [], incorrectlyNamedBuilds := ["oddbuild"],
                    incorrectlyStructuredBuilds := ["oddbuild"],
                    buildsWithIssuesInTarGz := [] })] : List (String × ProjectContents))) ∧
    ∀ project_name pc, (project_name, pc) ∈
      ([("projA", { objects := ["projA/20220101/x.tar.gz", "projA/oddbuild/old.txt"],
                    builds := ["20220101", "oddbuild"], validBuilds := [],
                    incorrectlyNamedBuilds := ["oddbuild"],
                    incorrectlyStructuredBuilds := ["20220101", "oddbuild"],
                    buildsWithIssuesInTarGz := [] }),
        ("projB", { objects := ["projB/oddbuild/y.tar.gz"], builds := ["oddbuild"],
                    validBuilds := [], incorrectlyNamedBuilds := ["oddbuild"],
                    incorrectlyStructuredBuilds := ["oddbuild"],
                    buildsWithIssuesInTarGz := [] })] : List (String × ProjectContents)) →
      project_name ∈ graphFileKeyProjects
        { compressed := ["projA/20220101/x.tar.gz", "projB/oddbuild/y.tar.gz"],
          uncompressed := [] } ∧
      ∀ b, memBuildLists b pc →
        ∃ k, k ∈ graphFileKeyAll
          { compressed := ["projA/20220101/x.tar.gz", "projB/oddbuild/y.tar.gz"],
            uncompressed := [] } ∧ pyGet (pySplit k "/") 1 = some b :=
  claim_C7 [("projA", "a"), ("projB", "b")]
    ["projA/20220101/x.tar.gz", "projA/oddbuild/old.txt", "projB/oddbuild/y.tar.gz"]
    { compressed := ["projA/20220101/x.tar.gz", "projB/oddbuild/y.tar.gz"],
      uncompressed := [] }
    (fun _ => []) (fun _ => .ok []) _ (by decide)

/-- C7 counterexample — In the same run as the witness above, the
build `oddbuild` of `projA` contains no newly classified key of
`projA` (its only fresh key sits under `20220101`; the second
conjunct), yet it is examined: it lands in `projA`'s "incorrectly
named builds" list (first conjunct), because `oddbuild` is also the
name of a fresh build of `projB`.  This falsifies the claim's "every
build of the project with no newly classified key under it is skipped
entirely". -/
theorem claim_C7_counterexample :
    ((validate_projects [("projA", "a"), ("projB", "b")]
        ["projA/20220101/x.tar.gz", "projA/oddbuild/old.txt", "projB/oddbuild/y.tar.gz"]
        { compressed := ["projA/20220101/x.tar.gz", "projB/oddbuild/y.tar.gz"],
          uncompressed := [] }
        (fun _ => []) (fun _ => .ok [])).toOption.bind
      (fun res => (res.lookup "projA").map
        (fun pc => pc.incorrectlyNamedBuilds)) = some ["oddbuild"]) ∧
    ((["projA/20220101/x.tar.gz", "projB/oddbuild/y.tar.gz"].all
      (fun k => !((pySplit k "/").headD "" == "projA" &&
                  ((pyGet (pySplit k "/") 1).getD "") == "oddbuild"))) = true) := by
  decide

/-! ## C2: idempotence of a full reconciliation run -/

theorem exceptMap_id_of {f : α → Except PyError α} {l : List α}
    (h : ∀ a ∈ l, f a = .ok a) : exceptMap f l = .ok l := by
  induction l with
  | nil => rfl
  | cons a as ih =>
    unfold exceptMap
    rw [h a (List.mem_cons_self a as), ih (fun x hx => h x (List.mem_cons_of_mem a hx))]

theorem getStatsOne_ok_id {statsOf : String → Option Stats} {a b : Record}
    (h : getStatsOne statsOf a = .ok b) :
    b.id = a.id ∧ b.compression = a.compression := by
  unfold getStatsOne at h
  cases hkey : pyGet (pySplit a.id hostNoSlash) 1 with
  | none => rw [hkey] at h; cases h
  | some object_key =>
    rw [hkey] at h
    dsimp only at h
    cases hproj : pyGet (pySplit object_key "/") 1 with
    | none => rw [hproj] at h; cases h
    | some object_project =>
      rw [hproj] at h
      dsimp only at h
      cases hotype : pyGet (pySplit object_key "/") 3 with
      | none => rw [hotype] at h; cases h
      | some object_type =>
        rw [hotype] at h
        dsimp only at h
        split at h
        · cases hst : statsOf object_key with
          | none => rw [hst] at h; cases h; exact ⟨rfl, rfl⟩
          | some stats =>
            rw [hst] at h
            dsimp only at h
            repeat' split at h
            all_goals cases h
            all_goals exact ⟨rfl, rfl⟩
        · cases h
          exact ⟨rfl, rfl⟩

theorem checkUrlsOne_ok_id {probe : String → Bool} {a b : Record}
    (h : checkUrlsOne probe a = .ok b) : b.id = a.id := by
  rw [checkUrlsOne_ok h]

theorem get_stats_ids {statsOf : String → Option Stats} {l l' : List Record}
    (h : get_stats statsOf l = .ok l') :
    l'.map (fun r => r.id) = l.map (fun r => r.id) := by
  unfold get_stats at h
  rw [exceptMap_ok_iff] at h
  exact forall₂_map_eq h (fun r => r.id) (fun r => r.id)
    (fun a b hab => (getStatsOne_ok_id hab).1)

theorem check_urls_ids {probe : String → Bool} {l l' : List Record}
    (h : check_urls probe l = .ok l') :
    l'.map (fun r => r.id) = l.map (fun r => r.id) := by
  unfold check_urls at h
  rw [exceptMap_ok_iff] at h
  exact forall₂_map_eq h (fun r => r.id) (fun r => r.id)
    (fun a b hab => checkUrlsOne_ok_id hab)

theorem classifyKeys_empty_of (keys : List String) (m : List Record)
    (hcls : ∀ k ∈ keys,
      keyKept (m.map (fun object => object.id)) k = true →
        isCompressedKey k = false ∧ isUncompressedKey k = false) :
    classifyKeys keys m = { compressed := [], uncompressed := [] } := by
  unfold classifyKeys
  dsimp only
  have h1 : keys.filter (fun keyname =>
      keyKept (m.map (fun object => object.id)) keyname && isCompressedKey keyname) = [] := by
    rw [List.filter_eq_nil]
    intro k hk
    intro hcontra
    rw [Bool.and_eq_true] at hcontra
    have := (hcls k hk hcontra.1).1
    rw [this] at hcontra
    cases hcontra.2
  have h2 : keys.filter (fun keyname =>
      keyKept (m.map (fun object => object.id)) keyname && isUncompressedKey keyname) = [] := by
    rw [List.filter_eq_nil]
    intro k hk
    intro hcontra
    rw [Bool.and_eq_true] at hcontra
    have := (hcls k hk hcontra.1).2
    rw [this] at hcontra
    cases hcontra.2
  rw [h1, h2]

theorem validate_projects_empty (projects : List (String × String)) (keys : List String)
    (bundleContents : String → List String)
    (kgxOutcome : String → Except PyError (List String)) :
    validate_projects projects keys { compressed := [], uncompressed := [] }
      bundleContents kgxOutcome = .ok [] := by
  unfold validate_projects
  have hb : graphFileKeyBuilds { compressed := [], uncompressed := [] } = .ok [] := rfl
  rw [hb]
  dsimp only
  have haux : ∀ (ps : List (String × String)) (acc : List (String × ProjectContents)),
      exceptFold (projectStep keys { compressed := [], uncompressed := [] }
        bundleContents kgxOutcome []) acc ps = .ok acc := by
    intro ps
    induction ps with
    | nil => intro acc; rfl
    | cons project rest ih =>
      intro acc
      unfold exceptFold
      have hstep : projectStep keys { compressed := [], uncompressed := [] }
          bundleContents kgxOutcome [] acc project = .ok acc := by
        unfold projectStep
        by_cases h1 : (project.1 == "kg-obo") = true
        · rw [if_pos h1]
        · rw [if_neg h1]
          have h2 : project.1 ∉ graphFileKeyProjects
              { compressed := [], uncompressed := [] } := by
            intro hcontra
            cases hcontra
          rw [if_pos h2]
      rw [hstep]
      exact ih acc
  exact haux projects []

theorem getStatsOne_obsolete_idem {statsOf : String → Option Stats} {a b : Record}
    (h : getStatsOne statsOf a = .ok b) (o : Option String) :
    getStatsOne statsOf { b with obsolete := o } = .ok { b with obsolete := o } := by
  unfold getStatsOne at h ⊢
  cases hkey : pyGet (pySplit a.id hostNoSlash) 1 with
  | none => rw [hkey] at h; cases h
  | some object_key =>
    rw [hkey] at h
    dsimp only at h
    cases hproj : pyGet (pySplit object_key "/") 1 with
    | none => rw [hproj] at h; cases h
    | some object_project =>
      rw [hproj] at h
      dsimp only at h
      cases hotype : pyGet (pySplit object_key "/") 3 with
      | none => rw [hotype] at h; cases h
      | some object_type =>
        rw [hotype] at h
        dsimp only at h
        split at h
        · next hC =>
          cases hst : statsOf object_key with
          | none =>
            rw [hst] at h
            cases h
            dsimp only
            rw [hkey]
            dsimp only
            rw [hproj]
            dsimp only
            rw [hotype]
            dsimp only
            rw [if_pos hC, hst]
          | some stats =>
            rw [hst] at h
            dsimp only at h
            cases hpj : (match stats.predicates with
                | some ps => some (String.intercalate "|" ps)
                | none =>
                  match stats.edge_labels with
                  | some ps => some (String.intercalate "|" ps)
                  | none => none) with
            | none => rw [hpj] at h; cases h
            | some predicatesJoined =>
              rw [hpj] at h
              dsimp only at h
              cases hnc : stats.node_categories with
              | none => rw [hnc] at h; cases h
              | some node_categories =>
                rw [hnc] at h
                dsimp only at h
                cases h
                dsimp only
                rw [hkey]
                dsimp only
                rw [hproj]
                dsimp only
                rw [hotype]
                dsimp only
                rw [if_pos hC, hst]
                dsimp only
                rw [hpj]
                dsimp only
                rw [hnc]
                dsimp only
                cases hnp : stats.node_id_prefixes with
                | none => rfl
                | some nps => rfl
        · next hC =>
          cases h
          dsimp only
          rw [hkey]
          dsimp only
          rw [hproj]
          dsimp only
          rw [hotype]
          dsimp only
          rw [if_neg hC]

theorem checkUrlsOne_idem {probe : String → Bool} {b c : Record}
    (h : checkUrlsOne probe b = .ok c) :
    checkUrlsOne probe c = .ok c := by
  unfold checkUrlsOne at h ⊢
  cases hk : pyGet (pySplit b.id urlBase) 1 with
  | none => rw [hk] at h; cases h
  | some object_key =>
    rw [hk] at h
    dsimp only at h
    by_cases hp : probe object_key = true
    · rw [if_pos hp] at h
      cases h
      dsimp only
      rw [hk]
      dsimp only
      rw [if_pos hp]
    · rw [if_neg hp] at h
      cases h
      dsimp only
      rw [hk]
      dsimp only
      rw [if_neg hp]

/-- C2 — Idempotence of the full reconciliation (no maximum cap):
if a run over a key listing with a given previous manifest completes
with output `m`, then a second run over the same listing — same bucket
contents, stats documents and liveness probes (the oracles in `env` are
unchanged) — with `m` as its previous manifest completes with output
`m` again: no key is re-classified (the classifier returns two empty
buckets), the Build Validator validates nothing, every carried-over
record is emitted unchanged and the liveness re-probe re-asserts the
same `obsolete` values. -/
theorem claim_C2 (env : Env) (keys : List String) (previous_manifest m : List Record)
    (h1 : runPipeline env keys none previous_manifest = .ok m) :
    runPipeline env keys none m = .ok m := by
  unfold runPipeline at h1
  dsimp only at h1
  cases hvp : validate_projects env.projects keys
      (get_graph_file_keys keys none previous_manifest) env.bundleContents env.kgxOutcome with
  | error e => rw [hvp] at h1; cases h1
  | ok project_contents =>
    rw [hvp] at h1
    dsimp only at h1
    cases hcr : create_dataset_objects (get_graph_file_keys keys none previous_manifest)
        env.obo env.projects project_contents previous_manifest with
    | error e => rw [hcr] at h1; cases h1
    | ok s2 =>
      rw [hcr] at h1
      dsimp only at h1
      cases hst : get_stats env.statsOf s2 with
      | error e => rw [hst] at h1; cases h1
      | ok s3 =>
        rw [hst] at h1
        dsimp only at h1
        obtain ⟨news, hs2, hids⟩ := create_dataset_objects_ok hcr
        have hm_ids : m.map (fun r => r.id) =
            previous_manifest.map (fun r => r.id) ++
            ((get_graph_file_keys keys none previous_manifest).compressed ++
              (get_graph_file_keys keys none previous_manifest).uncompressed).map keyUrl := by
          rw [check_urls_ids h1, get_stats_ids hst, hs2, List.map_append, hids]
        have hg2 : get_graph_file_keys keys none m =
            { compressed := [], uncompressed := [] } := by
          rw [get_graph_file_keys_none]
          apply classifyKeys_empty_of
          intro k hk hkept
          unfold keyKept at hkept
          rw [Bool.and_eq_true, decide_eq_true_eq, decide_eq_true_eq] at hkept
          have hprev_sub : keyUrl k ∉ previous_manifest.map (fun r => r.id) := by
            intro hcontra
            apply hkept.1
            rw [hm_ids]
            exact List.mem_append.mpr (Or.inl hcontra)
          have hkept_prev :
              keyKept (previous_manifest.map (fun object => object.id)) k = true := by
            unfold keyKept
            rw [Bool.and_eq_true, decide_eq_true_eq, decide_eq_true_eq]
            exact ⟨hprev_sub, hkept.2⟩
          constructor
          · by_cases hcomp : isCompressedKey k = true
            · exfalso
              apply hkept.1
              rw [hm_ids]
              refine List.mem_append.mpr (Or.inr ?_)
              refine List.mem_map.mpr ⟨k, ?_, rfl⟩
              refine List.mem_append.mpr (Or.inl ?_)
              rw [get_graph_file_keys_none]
              exact mem_classifyKeys_compressed.mpr ⟨hk, hkept_prev, hcomp⟩
            · exact Bool.not_eq_true _ ▸ Bool.eq_false_iff.mpr hcomp
          · by_cases huncomp : isUncompressedKey k = true
            · exfalso
              apply hkept.1
              rw [hm_ids]
              refine List.mem_append.mpr (Or.inr ?_)
              refine List.mem_map.mpr ⟨k, ?_, rfl⟩
              refine List.mem_append.mpr (Or.inr ?_)
              rw [get_graph_file_keys_none]
              exact mem_classifyKeys_uncompressed.mpr ⟨hk, hkept_prev, huncomp⟩
            · exact Bool.not_eq_true _ ▸ Bool.eq_false_iff.mpr huncomp
        have hper : ∀ r ∈ m, getStatsOne env.statsOf r = .ok r ∧
            checkUrlsOne env.probe r = .ok r := by
          intro r hr
          have hcuF := exceptMap_ok_iff.mp (show exceptMap (checkUrlsOne env.probe) s3 =
            .ok m from h1)
          obtain ⟨b, hb3, hbr⟩ := forall₂_mem_right hcuF hr
          have hstF := exceptMap_ok_iff.mp (show exceptMap (getStatsOne env.statsOf) s2 =
            .ok s3 from hst)
          obtain ⟨a, _, hab⟩ := forall₂_mem_right hstF hb3
          constructor
          · rw [checkUrlsOne_ok hbr]
            exact getStatsOne_obsolete_idem hab _
          · exact checkUrlsOne_idem hbr
        have hstats_m : get_stats env.statsOf m = .ok m :=
          exceptMap_id_of (fun r hr => (hper r hr).1)
        have hcheck_m : check_urls env.probe m = .ok m :=
          exceptMap_id_of (fun r hr => (hper r hr).2)
        have hcreate_m : create_dataset_objects { compressed := [], uncompressed := [] }
            env.obo env.projects [] m = .ok m := by
          show (Except.ok (m ++ [] ++ []) : Except PyError (List Record)) = .ok m
          rw [List.append_nil, List.append_nil]
        unfold runPipeline
        dsimp only
        rw [hg2, validate_projects_empty]
        dsimp only
        rw [hcreate_m]
        dsimp only
        rw [hstats_m]
        dsimp only
        exact hcheck_m

/-- Closed instance of `claim_C2`: a run over one fresh uncompressed
key from an empty previous manifest, re-run on its own output. -/
theorem claim_C2_witness :
    runPipeline
      { projects := [("alpha", "Alpha")], obo := [], bundleContents := fun _ => [],
        kgxOutcome := fun _ => .ok [], statsOf := fun _ => none, probe := fun _ => true }
      ["alpha/20230101/nodes.tsv"] none [] =
      .ok [{ id := "https://kg-hub.berkeleybop.io/alpha/20230101/nodes.tsv",
             title := "nodes.tsv", obsolete := some "False" }] ∧
    runPipeline
      { projects := [("alpha", "Alpha")], obo := [], bundleContents := fun _ => [],
        kgxOutcome := fun _ => .ok [], statsOf := fun _ => none, probe := fun _ => true }
      ["alpha/20230101/nodes.tsv"] none
      [{ id := "https://kg-hub.berkeleybop.io/alpha/20230101/nodes.tsv",
         title := "nodes.tsv", obsolete := some "False" }] =
      .ok [{ id := "https://kg-hub.berkeleybop.io/alpha/20230101/nodes.tsv",
             title := "nodes.tsv", obsolete := some "False" }] :=
  ⟨by decide,
   claim_C2
     { projects := [("alpha", "Alpha")], obo := [], bundleContents := fun _ => [],
       kgxOutcome := fun _ => .ok [], statsOf := fun _ => none, probe := fun _ => true }
     ["alpha/20230101/nodes.tsv"] []
     [{ id := "https://kg-hub.berkeleybop.io/alpha/20230101/nodes.tsv",
        title := "nodes.tsv", obsolete := some "False" }] (by decide)⟩

end KGManifest
